import Mathlib

/-!
Verification of the multi-currency game-economy core of
Mobile_Sports_DM_Resource_Economy_Management.

The definitions below are a shallow embedding of the Python sources
`src/Logging_Infrastructure/logger_function.py`,
`src/Logging_Infrastructure/complete_economic_system.py` and
`src/Logging_Infrastructure/economic_dashboard_phase3.py`.
Python dicts are embedded as insertion-ordered association lists,
balances as integers (the spec fixes all balances to integers), monetary
rates as rationals, file-system contents as explicit state fields, and
raised exceptions as `Except` errors.
-/

/-! ### Python dictionaries as insertion-ordered association lists -/

/-- `d[k]` lookup in a Python dict: first (unique) binding of `k`. -/
def dlookup {κ α : Type} [DecidableEq κ] : List (κ × α) → κ → Option α
  | [], _ => none
  | (k, v) :: rest, key => if k = key then some v else dlookup rest key

/-- `d.get(k, dflt)` of a Python dict. -/
def dget {κ α : Type} [DecidableEq κ] (d : List (κ × α)) (key : κ) (dflt : α) : α :=
  (dlookup d key).getD dflt

/-- `d[k] = v` on a Python dict: update in place, or append a new binding. -/
def dset {κ α : Type} [DecidableEq κ] : List (κ × α) → κ → α → List (κ × α)
  | [], key, v => [(key, v)]
  | (k, w) :: rest, key, v =>
    if k = key then (k, v) :: rest else (k, w) :: dset rest key v

theorem dlookup_dset_self {κ α : Type} [DecidableEq κ] (d : List (κ × α)) (k : κ) (v : α) :
    dlookup (dset d k v) k = some v := by
  induction d with
  | nil => simp [dset, dlookup]
  | cons hd tl ih =>
    by_cases h : hd.1 = k
    · simp [dset, dlookup, h]
    · simp [dset, dlookup, h, ih]

theorem dlookup_dset_ne {κ α : Type} [DecidableEq κ] (d : List (κ × α)) (k k' : κ) (v : α)
    (h : k ≠ k') : dlookup (dset d k v) k' = dlookup d k' := by
  induction d with
  | nil => simp [dset, dlookup, h]
  | cons hd tl ih =>
    by_cases h1 : hd.1 = k
    · simp [dset, dlookup, h1, h]
    · simp only [dset, if_neg h1]
      by_cases h2 : hd.1 = k'
      · simp [dlookup, h2]
      · simp [dlookup, h2, ih]

/-- Writing back the value already stored leaves a dict unchanged. -/
theorem dset_lookup_eq {κ α : Type} [DecidableEq κ] (d : List (κ × α)) (k : κ) (v : α)
    (h : dlookup d k = some v) : dset d k v = d := by
  induction d with
  | nil => simp [dlookup] at h
  | cons hd tl ih =>
    obtain ⟨k0, v0⟩ := hd
    by_cases h1 : k0 = k
    · simp only [dlookup, if_pos h1] at h
      cases h
      simp [dset, h1]
    · simp only [dlookup, if_neg h1] at h
      simp [dset, h1, ih h]

/-- Every binding of `dset d k v` is a binding of `d` or is `(k, v)`. -/
theorem mem_dset {κ α : Type} [DecidableEq κ] (d : List (κ × α)) (k : κ) (v : α) (p : κ × α)
    (h : p ∈ dset d k v) : p ∈ d ∨ p = (k, v) := by
  induction d with
  | nil => simp [dset] at h; simp [h]
  | cons hd tl ih =>
    obtain ⟨k0, v0⟩ := hd
    by_cases h1 : k0 = k
    · simp only [dset, if_pos h1] at h
      rcases List.mem_cons.mp h with h2 | h2
      · subst h1; right; simpa using h2
      · left; exact List.mem_cons_of_mem _ h2
    · simp only [dset, if_neg h1] at h
      rcases List.mem_cons.mp h with h2 | h2
      · left; simp [h2]
      · rcases ih h2 with h3 | h3
        · left; exact List.mem_cons_of_mem _ h3
        · right; exact h3

/-! ### Sorting helpers (Python `sorted` on week numbers, `statistics.median`) -/

/-- Insert an integer into a sorted list (ascending). -/
def insSortedInt (n : Int) : List Int → List Int
  | [] => [n]
  | m :: rest => if n ≤ m then n :: m :: rest else m :: insSortedInt n rest

/-- Insertion sort on integers, ascending — model of Python `sorted`. -/
def sortInt (l : List Int) : List Int := l.foldr insSortedInt []

/-- Insert a natural number into a sorted list (ascending). -/
def insSortedNat (n : Nat) : List Nat → List Nat
  | [] => [n]
  | m :: rest => if n ≤ m then n :: m :: rest else m :: insSortedNat n rest

/-- Insertion sort on naturals, ascending — model of Python `sorted` over week keys. -/
def sortNat (l : List Nat) : List Nat := l.foldr insSortedNat []

/-- Python `l[-k:]`: the last `k` elements, the whole list when `k = 0`. -/
def pyLastK {α : Type} (l : List α) (k : Nat) : List α :=
  if k = 0 then l else l.drop (l.length - k)

/-! ### Currency aliasing -/

/-- Python `str.lower`, character by character. -/
def pyLower (s : String) : String := ⟨s.data.map Char.toLower⟩

/-- The legacy-name alias map applied after lower-casing, as written at the
`process_transaction` / `calculate_weekly_delta` / `detect_inflation` call
sites: soft → coins, premium → gems, coachingcredit/utility → credits. -/
def resolveAlias (currency : String) : String :=
  let c := pyLower currency
  if c = "soft" then "coins"
  else if c = "premium" then "gems"
  else if c = "coachingcredit" then "credits"
  else if c = "utility" then "credits"
  else c

/-! ### Python exceptions -/

/-- The uncaught Python exceptions the embedded code can raise. -/
inductive PyErr : Type
  | keyError
  | typeError
  | nameError
deriving DecidableEq, Repr

/-! ### PlayerWallet (logger_function.py) -/

/-- One logged transaction record (`log_transaction` payload); only the
fields the claims observe are carried. -/
structure TxRecord where
  currency : String
  amount : Int
  ttype : String
  source : String
  cap_reached : Bool := false
  excess_amount_discarded : Option Int := none
  failure_reason : Option String := none
deriving DecidableEq, Repr

/-- `PlayerWallet`: per-player balance dict keyed by
Soft / Premium / Utility / CoachingCredit, plus the coaching-credit cap. -/
structure PlayerWallet where
  player_id : String
  balances : List (String × Int)
  coaching_credit_cap : Int
deriving DecidableEq, Repr

/-- `PlayerWallet.__init__(player_id, initial_soft, initial_premium,
initial_utility, initial_coaching_credits, coaching_credit_cap)`. -/
def PlayerWallet.init (pid : String) (soft premium utility coaching cap : Int) :
    PlayerWallet :=
  { player_id := pid,
    balances := [("Soft", soft), ("Premium", premium), ("Utility", utility),
                 ("CoachingCredit", coaching)],
    coaching_credit_cap := cap }

/-- `PlayerWallet.get_balance`: `self.balances.get(currency_type, 0.0)`. -/
def PlayerWallet.get_balance (w : PlayerWallet) (currency : String) : Int :=
  dget w.balances currency 0

/-- `PlayerWallet.add_currency`.  Returns the Python return value, the
wallet after the call, and the emitted log record (if any); a `+=` on a
missing dict key raises `KeyError`. -/
def addCurrency (w : PlayerWallet) (currency : String) (amount : Int) (src : String) :
    Except PyErr (Bool × PlayerWallet × Option TxRecord) :=
  if amount ≤ 0 then .ok (false, w, none)
  else if currency = "CoachingCredit" then
    match dlookup w.balances "CoachingCredit" with
    | none => .error .keyError
    | some b =>
      let new_amount := b + amount
      if new_amount > w.coaching_credit_cap then
        let excess_amount := new_amount - w.coaching_credit_cap
        .ok (true,
          { w with balances := dset w.balances "CoachingCredit" w.coaching_credit_cap },
          some { currency := currency, amount := amount - excess_amount,
                 ttype := "Earn", source := src, cap_reached := true,
                 excess_amount_discarded := some excess_amount })
      else
        .ok (true,
          { w with balances := dset w.balances currency (b + amount) },
          some { currency := currency, amount := amount, ttype := "Earn",
                 source := src })
  else
    match dlookup w.balances currency with
    | none => .error .keyError
    | some b =>
      .ok (true,
        { w with balances := dset w.balances currency (b + amount) },
        some { currency := currency, amount := amount, ttype := "Earn",
               source := src })

/-- `PlayerWallet.spend_currency`. -/
def spendCurrency (w : PlayerWallet) (currency : String) (amount : Int) (src : String) :
    Except PyErr (Bool × PlayerWallet × Option TxRecord) :=
  if amount ≤ 0 then .ok (false, w, none)
  else if dget w.balances currency 0 < amount then
    .ok (false, w,
      some { currency := currency, amount := -amount, ttype := "Spend",
             source := src ++ "_Failed", failure_reason := some "InsufficientFunds" })
  else
    match dlookup w.balances currency with
    | none => .error .keyError
    | some b =>
      .ok (true,
        { w with balances := dset w.balances currency (b - amount) },
        some { currency := currency, amount := -amount, ttype := "Spend",
               source := src })

/-- One wallet mutation request (direction, currency, amount, source). -/
inductive WOp : Type
  | add (currency : String) (amount : Int) (src : String)
  | spend (currency : String) (amount : Int) (src : String)
deriving DecidableEq, Repr

/-- Run one wallet operation; an uncaught exception leaves the balance
dict as it was (both raising statements read before any write). -/
def wrun (w : PlayerWallet) : WOp → PlayerWallet
  | .add c a s =>
    match addCurrency w c a s with
    | .ok (_, w', _) => w'
    | .error _ => w
  | .spend c a s =>
    match spendCurrency w c a s with
    | .ok (_, w', _) => w'
    | .error _ => w

/-- All balances of a wallet are non-negative. -/
def NonNegBalances (w : PlayerWallet) : Prop := ∀ p ∈ w.balances, 0 ≤ p.2

instance (w : PlayerWallet) : Decidable (NonNegBalances w) := by
  unfold NonNegBalances; infer_instance

/-! ### GameStateManager (complete_economic_system.py) -/

/-- The content of a stored file: deserializable, or corrupt
(present but `json.load` raises). -/
inductive FileData (α : Type) : Type
  | good (a : α)
  | corrupt
deriving DecidableEq, Repr

/-- `GameStateManager` state: the primary store `game_state.json`
(`none` = file missing), the rollback stack of backup-file contents
(oldest first, as in `self.rollback_stack`), the stack bound
`max_rollback_states`, and the append-only `transaction_log.json`
journal (entries of type `β`). -/
structure GSMState (α β : Type) where
  mainFile : Option (FileData α)
  rollbackStack : List (FileData α)
  maxRollback : Nat
  transactionLog : List β
deriving DecidableEq, Repr

/-- `GameStateManager.__init__`: no save file, empty stack, bound 10. -/
def gsmInit {α β : Type} : GSMState α β :=
  { mainFile := none, rollbackStack := [], maxRollback := 10, transactionLog := [] }

/-- `GameStateManager._create_backup`: copy the primary store to a new
backup file, append it to the rollback stack, and when the stack exceeds
the bound pop the oldest entry and delete its file (modelled by dropping
it from the stack). `content` is the current primary-store content. -/
def createBackup {α β : Type} (g : GSMState α β) (content : FileData α) : GSMState α β :=
  let stack1 := g.rollbackStack ++ [content]
  let stack2 := if stack1.length > g.maxRollback then stack1.drop 1 else stack1
  { g with rollbackStack := stack2 }

/-- `GameStateManager.save_game_state(game_state, create_backup)`: back up
the existing primary store first when requested, then write the new state
to the primary store; returns the success flag.  File writes are modelled
as succeeding (the claims under verification do not concern I/O faults). -/
def saveGameState {α β : Type} (g : GSMState α β) (state : α) (backup : Bool) :
    GSMState α β × Bool :=
  let g1 := match g.mainFile, backup with
    | some content, true => createBackup g content
    | _, _ => g
  ({ g1 with mainFile := some (.good state) }, true)

/-- `GameStateManager.load_game_state`: `None` when the save file is
missing; on a corrupt file `json.load` raises, the bare `except` prints
and returns `None` as well. -/
def loadGameState {α β : Type} (g : GSMState α β) : Option α :=
  match g.mainFile with
  | none => none
  | some (.good a) => some a
  | some .corrupt => none

/-- `GameStateManager.rollback_to_previous_state`: pop the most recent
backup, copy it over the primary store, delete the popped backup file;
fails (no-op) when the stack is empty. -/
def rollbackToPreviousState {α β : Type} (g : GSMState α β) : GSMState α β × Bool :=
  match g.rollbackStack.getLast? with
  | none => (g, false)
  | some b =>
    ({ g with rollbackStack := g.rollbackStack.dropLast, mainFile := some b }, true)

/-- `GameStateManager.log_transaction`: append one record to the journal. -/
def gsmLogTransaction {α β : Type} (g : GSMState α β) (tx : β) : GSMState α β :=
  { g with transactionLog := g.transactionLog ++ [tx] }

/-- One persistence-guard request: a save (with or without backup) or a
rollback. -/
inductive GOp (α : Type) : Type
  | save (state : α) (backup : Bool)
  | rollback
deriving DecidableEq, Repr

/-- Run one persistence-guard request. -/
def grun {α β : Type} (g : GSMState α β) : GOp α → GSMState α β
  | .save st b => (saveGameState g st b).1
  | .rollback => (rollbackToPreviousState g).1

/-- Run a sequence of persistence-guard requests. -/
def grunAll {α β : Type} (g : GSMState α β) (ops : List (GOp α)) : GSMState α β :=
  ops.foldl grun g

/-! ### IntegratedEconomicSystem (complete_economic_system.py) -/

/-- One wallet dict of `IntegratedEconomicSystem.create_player`:
`current_balances` and `max_capacities` keyed by coins / gems / credits
(`earn_rates` and `created_at` are carried by the source dict but never
read by any modelled operation, so they are omitted). -/
structure IWallet where
  current_balances : List (String × Int)
  max_capacities : List (String × Int)
deriving DecidableEq, Repr

/-- A journal entry written by `process_transaction` /
`_log_failed_transaction`. -/
structure ITx where
  player_id : String
  currency : String
  ttype : String
  amount : Int
  source : String
  new_balance : Option Int := none
  failure_reason : Option String := none
deriving DecidableEq, Repr

/-- The in-memory state of `IntegratedEconomicSystem`: `self.wallets` and
`self.metrics` (`total_transactions` plus the never-mutated
`weekly_deltas` / `inflation_rates` / `alerts` aggregates). -/
structure EconMem where
  wallets : List (String × IWallet)
  totalTransactions : Nat
  weeklyDeltas : List (String × Int) := []
  inflationRates : List (String × Int) := []
  alerts : List String := []
deriving DecidableEq, Repr

/-- The fresh in-memory state built by `__init__` when no save exists. -/
def econMemInit : EconMem :=
  { wallets := [], totalTransactions := 0 }

/-- The whole system: the `GameStateManager` plus the in-memory state. -/
structure Sys where
  gsm : GSMState EconMem ITx
  mem : EconMem
deriving DecidableEq, Repr

/-- `IntegratedEconomicSystem.__init__` on an empty save directory:
`load_game` finds no save file and keeps the fresh in-memory state. -/
def sysInit : Sys := { gsm := gsmInit, mem := econMemInit }

/-- `IntegratedEconomicSystem._normalize_player_id`, modelled on its
fixed-point inputs: for a canonical UUID string `p`,
`str(uuid.UUID(p)) = p`.  The nondeterministic regeneration of invalid
ids is not modelled; all modelled players use canonical ids. -/
def normalizePlayerId (pid : String) : String := pid

/-- `IntegratedEconomicSystem._auto_save`: save without backup. -/
def autoSave (s : Sys) : Sys :=
  { s with gsm := (saveGameState s.gsm s.mem false).1 }

/-- `IntegratedEconomicSystem.create_player`. -/
def createPlayer (s : Sys) (pid : String) (coins gems credits creditsCap : Int) : Sys :=
  let nid := normalizePlayerId pid
  let wallet : IWallet :=
    { current_balances := [("coins", coins), ("gems", gems), ("credits", credits)],
      max_capacities := [("coins", coins * 10), ("gems", gems * 10),
                         ("credits", creditsCap)] }
  autoSave { s with mem := { s.mem with wallets := dset s.mem.wallets nid wallet } }

/-- The failed-transaction journal record of `_log_failed_transaction`. -/
def failTx (pid cur : String) (amount : Int) (src reason : String) : ITx :=
  { player_id := pid, currency := cur, ttype := "failed", amount := amount,
    source := src, failure_reason := some reason }

/-- `IntegratedEconomicSystem.process_transaction(player_id, currency,
amount, source, context, allow_rollback)`: optional pre-mutation
save-with-backup, currency alias resolution, sufficiency and credits-cap
checks, balance mutation, journal append, metrics bump and auto-save. -/
def processTransaction (s : Sys) (pid currency : String) (amount : Int)
    (src : String) (allowRollback : Bool) : Sys × Bool :=
  let nid := normalizePlayerId pid
  match dlookup s.mem.wallets nid with
  | none => (s, false)
  | some wallet =>
    let gsm0 := if allowRollback then (saveGameState s.gsm s.mem true).1 else s.gsm
    let cur := resolveAlias currency
    match dlookup wallet.current_balances cur with
    | none =>
      ({ gsm := gsmLogTransaction gsm0 (failTx nid cur amount src "UnsupportedCurrency"),
         mem := s.mem }, false)
    | some current_balance =>
      let ttype := if amount > 0 then "earn" else "spend"
      let delta0 := |amount|
      if ttype = "spend" ∧ current_balance < delta0 then
        ({ gsm := gsmLogTransaction gsm0 (failTx nid cur amount src "InsufficientFunds"),
           mem := s.mem }, false)
      else
        let delta :=
          if ttype = "earn" ∧ cur = "credits" then
            let cap := dget wallet.max_capacities "credits" 0
            if current_balance + delta0 > cap then max (cap - current_balance) 0
            else delta0
          else delta0
        if (ttype = "earn" ∧ cur = "credits") ∧ delta = 0 then
          ({ gsm := gsm0, mem := s.mem }, false)
        else
          let signed_delta := if ttype = "earn" then delta else -delta
          let newBalances := dset wallet.current_balances cur (current_balance + signed_delta)
          let wallet1 := { wallet with current_balances := newBalances }
          let mem1 := { s.mem with wallets := dset s.mem.wallets nid wallet1 }
          let tx : ITx :=
            { player_id := nid, currency := cur, ttype := ttype,
              amount := signed_delta, source := src,
              new_balance := some (current_balance + signed_delta) }
          let gsm1 := gsmLogTransaction gsm0 tx
          let mem2 := { mem1 with totalTransactions := mem1.totalTransactions + 1 }
          ({ gsm := (saveGameState gsm1 mem2 false).1, mem := mem2 }, true)

/-- `IntegratedEconomicSystem.load_game`: reload wallets and metrics from
the primary store; keep the in-memory state when the load yields nothing. -/
def loadGame (s : Sys) : Sys × Bool :=
  match loadGameState s.gsm with
  | some gs => ({ s with mem := gs }, true)
  | none => (s, false)

/-- `IntegratedEconomicSystem.rollback_last_transaction`: roll the
primary store back to the most recent backup, then reload. -/
def rollbackLastTransaction (s : Sys) : Sys × Bool :=
  let r := rollbackToPreviousState s.gsm
  if r.2 then ((loadGame { s with gsm := r.1 }).1, true)
  else (s, false)

/-- `IntegratedEconomicSystem.save_game` (without checkpoint):
save with backup. -/
def saveGame (s : Sys) : Sys :=
  { s with gsm := (saveGameState s.gsm s.mem true).1 }

/-- The public operations of `IntegratedEconomicSystem`. -/
inductive SysOp : Type
  | create (pid : String) (coins gems credits cap : Int)
  | process (pid cur : String) (amount : Int) (src : String) (rb : Bool)
  | rollback
  | save
deriving DecidableEq, Repr

/-- Run one public operation. -/
def runOp (s : Sys) : SysOp → Sys
  | .create pid c g cr cap => createPlayer s pid c g cr cap
  | .process pid cur a src rb => (processTransaction s pid cur a src rb).1
  | .rollback => (rollbackLastTransaction s).1
  | .save => saveGame s

/-- Run a sequence of public operations from a given state. -/
def runOps (s : Sys) (ops : List SysOp) : Sys := ops.foldl runOp s

/-- A system state produced by some operation sequence from `sysInit`. -/
def Reachable (s : Sys) : Prop := ∃ ops : List SysOp, runOps sysInit ops = s

/-! ### EconomicMetrics (economic_dashboard_phase3.py) -/

/-- `TRACKED_CURRENCIES = ("coins", "gems", "credits")`. -/
def TRACKED_CURRENCIES : List String := ["coins", "gems", "credits"]

/-- Alert severity levels. -/
inductive AlertLevel : Type
  | INFO
  | WARNING
  | CRITICAL
  | EMERGENCY
deriving DecidableEq, Repr

/-- One alert as stored by `_create_alert` (id, timestamp and the
acknowledged flag carry no information the claims observe). -/
structure Alert where
  level : AlertLevel
  message : String
deriving DecidableEq, Repr

/-- One tracked transaction in `self.transaction_history[currency]`.
The `week` field is the ISO calendar week of the entry timestamp,
`_get_week_number(t.timestamp)` being embedded as a stored number. -/
structure TTx where
  player_id : String
  amount : Int
  ttype : String
  source : String
  week : Nat
deriving DecidableEq, Repr

/-- The `EconomicMetrics` state. -/
structure EMetrics where
  inflation_threshold : ℚ := 15 / 100
  scarcity_threshold : ℚ := 3 / 10
  transaction_history : List (String × List TTx) := []
  weekly_deltas : List (Nat × List (String × ℚ)) := []
  resource_distribution : List (String × List (String × Int)) := []
  inflation_rates : List (String × List ℚ) := []
  active_alerts : List Alert := []
  alert_history : List Alert := []
deriving DecidableEq, Repr

/-- A fresh `EconomicMetrics()` with the default thresholds. -/
def emInit : EMetrics := {}

/-- `EconomicMetrics._create_alert`: append to both the active list and
the history (persisting CRITICAL/EMERGENCY alerts to local storage is a
file write with no further observable state). -/
def createAlert (m : EMetrics) (level : AlertLevel) (message : String) : EMetrics :=
  { m with active_alerts := m.active_alerts ++ [{ level := level, message := message }],
           alert_history := m.alert_history ++ [{ level := level, message := message }] }

/-- `EconomicMetrics.track_transaction`: ignore non-tracked currencies,
append to the per-currency history, and move the per-player resource
snapshot by `±|amount|` (the periodic local-storage dump is I/O only). -/
def trackTransaction (m : EMetrics) (currency : String) (pid : String)
    (amount : Int) (ttype : String) (src : String) (week : Nat) : EMetrics :=
  let cur := pyLower currency
  if cur ∉ TRACKED_CURRENCIES then m
  else
    let hist := dget m.transaction_history cur []
    let entry : TTx := { player_id := pid, amount := amount, ttype := ttype,
                         source := src, week := week }
    let hist1 := dset m.transaction_history cur (hist ++ [entry])
    let m1 := { m with transaction_history := hist1 }
    let dist := dget m1.resource_distribution cur []
    if ttype = "earn" then
      let dist1 := dset m1.resource_distribution cur (dset dist pid (dget dist pid 0 + |amount|))
      { m1 with resource_distribution := dist1 }
    else if ttype = "spend" then
      let dist1 := dset m1.resource_distribution cur (dset dist pid (dget dist pid 0 - |amount|))
      { m1 with resource_distribution := dist1 }
    else m1

/-- `EconomicMetrics.calculate_weekly_delta(currency, week_number)`:
sum of `|amount|` over the earn transactions of that week minus the same
sum over spends, stored into `self.weekly_deltas[week][currency]`. -/
def calculateWeeklyDelta (m : EMetrics) (currency : String) (week : Nat) :
    ℚ × EMetrics :=
  let cur := resolveAlias currency
  if cur ∉ TRACKED_CURRENCIES then (0, m)
  else
    let week_transactions := (dget m.transaction_history cur []).filter
      (fun t => t.week = week)
    let total_earned : Int :=
      ((week_transactions.filter (fun t => t.ttype = "earn")).map
        (fun t => |t.amount|)).sum
    let total_spent : Int :=
      ((week_transactions.filter (fun t => t.ttype = "spend")).map
        (fun t => |t.amount|)).sum
    let delta : ℚ := ((total_earned - total_spent : Int) : ℚ)
    let weekDict := dget m.weekly_deltas week []
    ((delta : ℚ),
     { m with weekly_deltas := dset m.weekly_deltas week (dset weekDict cur delta) })

/-- The sorted last-`lookback` window of recorded delta weeks, and the
per-week deltas of `currency` inside it (`.get(currency, 0)`). -/
def windowDeltas (m : EMetrics) (cur : String) (lookback : Nat) : List ℚ :=
  let recent_weeks := pyLastK (sortNat (m.weekly_deltas.map Prod.fst)) lookback
  recent_weeks.map (fun w => dget (dget m.weekly_deltas w []) cur 0)

/-- `EconomicMetrics.detect_inflation(currency, lookback_weeks)`:
needs `lookback_weeks` recorded weeks, takes oldest and newest delta of
the sorted lookback window, rate `(newest − oldest) / |oldest|` (0 and
not-inflated when the window is empty or its oldest delta is 0), tracks
the rate, and emits a WARNING alert whenever `rate > threshold`. -/
def detectInflation (m : EMetrics) (currency : String) (lookback : Nat) :
    (Bool × ℚ) × EMetrics :=
  let cur := resolveAlias currency
  if m.weekly_deltas.length < lookback then ((false, 0), m)
  else
    match windowDeltas m cur lookback with
    | [] => ((false, 0), m)
    | d0 :: rest =>
      if d0 = 0 then ((false, 0), m)
      else
        let dlast := (d0 :: rest).getLastD 0
        let rate := (dlast - d0) / |d0|
        let rates := dget m.inflation_rates cur [] ++ [rate]
        let rates := if rates.length > 100 then rates.drop 1 else rates
        let m1 := { m with inflation_rates := dset m.inflation_rates cur rates }
        let is_inflated := rate > m.inflation_threshold
        let m2 := if is_inflated then
            createAlert m1 .WARNING ("Inflation detected in " ++ cur)
          else m1
        ((is_inflated, rate), m2)

/-- One suggested mitigation action of `mitigate_inflation`. -/
structure MitAction where
  action : String
  priority : String
deriving DecidableEq, Repr

/-- The mitigation plan `mitigate_inflation` is meant to return. -/
structure MitPlan where
  currency : String
  inflation_rate : ℚ
  strategies : List MitAction
deriving DecidableEq, Repr

/-- `EconomicMetrics.mitigate_inflation(currency)`: re-runs detection and
assembles severity-gated strategies, but the `mitigation_plan` dict
literal reads the undefined name `currency_type` (the parameter is
`currency`), so every call raises `NameError` before returning.  The
in-place metrics mutation `detect_inflation` performed before the raise
is unobservable to the caller of this always-raising function. -/
def mitigateInflation (m : EMetrics) (currency : String) : Except PyErr MitPlan :=
  let detected := (detectInflation m currency 4).1
  let rate := detected.2
  let _strategies : List MitAction :=
    if detected.1 then
      (if rate > 3 / 10 then
        [{ action := "reduce_earn_rates", priority := "HIGH" },
         { action := "increase_sinks", priority := "MEDIUM" }]
       else []) ++
      (if rate > 1 / 2 then
        [{ action := "temporary_earning_caps", priority := "HIGH" }]
       else [])
    else []
  .error .nameError

/-! ### Scarcity heatmap -/

/-- `statistics.mean` over integer balances, as an exact rational. -/
def meanQ (l : List Int) : ℚ := ((l.map fun x => (x : ℚ)).sum) / (l.length : ℚ)

/-- The square of `statistics.stdev` (SAMPLE standard deviation,
denominator `n − 1`); the source guards `len(values) > 1` and uses 0
otherwise.  The square is carried so the whole computation stays in ℚ;
`std_dev` itself is its square root. -/
def sampleVarQ (l : List Int) : ℚ :=
  if l.length > 1 then
    ((l.map fun x => ((x : ℚ) - meanQ l) ^ 2).sum) / ((l.length : ℚ) - 1)
  else 0

/-- The square of the POPULATION standard deviation (denominator `n`),
the statistic the specification names; compared against `sampleVarQ`. -/
def popVarQ (l : List Int) : ℚ :=
  if l.length > 0 then
    ((l.map fun x => ((x : ℚ) - meanQ l) ^ 2).sum) / (l.length : ℚ)
  else 0

/-- `statistics.median`: middle of the sorted list, or the average of the
two middles for even length. -/
def medianQ (l : List Int) : ℚ :=
  let s := sortInt l
  let n := s.length
  if n % 2 = 1 then ((s.getD (n / 2) 0 : Int) : ℚ)
  else (((s.getD (n / 2 - 1) 0 + s.getD (n / 2) 0 : Int)) : ℚ) / 2

/-- Python `min` over a nonempty integer list (0 for the empty list,
which the source never reaches). -/
def listMinD (l : List Int) : Int :=
  match l with
  | [] => 0
  | x :: xs => xs.foldl min x

/-- Python `max` over a nonempty integer list. -/
def listMaxD (l : List Int) : Int :=
  match l with
  | [] => 0
  | x :: xs => xs.foldl max x

/-- One currency entry of the scarcity heatmap.  `std_dev_sq` is the
square of the reported `std_deviation` (see `sampleVarQ`). -/
structure HeatEntry where
  average_balance : ℚ
  std_dev_sq : ℚ
  total_circulation : Int
  scarce_players : List String
  scarcity_percentage : ℚ
  dist_min : Int
  dist_max : Int
  dist_median : ℚ
deriving DecidableEq, Repr

/-- The heatmap entry computed for one currency from its per-player
balance dict, given the scarcity threshold. -/
def heatEntry (threshold : ℚ) (player_balances : List (String × Int)) : HeatEntry :=
  let values := player_balances.map Prod.snd
  let avg_balance := meanQ values
  let scarce := (player_balances.filter
    (fun p => (p.2 : ℚ) < avg_balance * threshold)).map Prod.fst
  { average_balance := avg_balance,
    std_dev_sq := sampleVarQ values,
    total_circulation := values.sum,
    scarce_players := scarce,
    scarcity_percentage := (scarce.length : ℚ) / (player_balances.length : ℚ) * 100,
    dist_min := listMinD values,
    dist_max := listMaxD values,
    dist_median := medianQ values }

/-- One iteration of the `generate_resource_scarcity_heatmap` loop:
skip currencies with no tracked balances, append the computed entry, and
emit a WARNING alert when the scarcity percentage exceeds 50. -/
def heatStep (m : EMetrics) (acc : List (String × HeatEntry) × EMetrics)
    (cp : String × List (String × Int)) : List (String × HeatEntry) × EMetrics :=
  if cp.2 = [] then acc
  else
    let e := heatEntry m.scarcity_threshold cp.2
    let m1 := if e.scarcity_percentage > 50 then
        createAlert acc.2 .WARNING ("High resource scarcity in " ++ cp.1)
      else acc.2
    (acc.1 ++ [(cp.1, e)], m1)

/-- `EconomicMetrics.generate_resource_scarcity_heatmap`: one entry per
currency with a nonempty balance dict; a scarcity percentage above 50
emits a WARNING alert for that currency. -/
def generateResourceScarcityHeatmap (m : EMetrics) :
    List (String × HeatEntry) × EMetrics :=
  m.resource_distribution.foldl (heatStep m) ([], m)

/-! ### EconomicMonitoringSystem (economic_dashboard_phase3.py) -/

/-- The monitoring facade: an `EconomicMetrics` instance plus the
registered `PlayerWallet`s. -/
structure MonSys where
  metrics : EMetrics := emInit
  wallets : List (String × PlayerWallet) := []
deriving DecidableEq, Repr

/-- A fresh `EconomicMonitoringSystem()`. -/
def monInit : MonSys := {}

/-- `EconomicMonitoringSystem.create_player_wallet`: forwards
`initial_coins` / `initial_gems` / `initial_credits` / `credits_cap`
keyword arguments to `PlayerWallet.__init__`, whose parameters are
`initial_soft` / `initial_premium` / `initial_utility` /
`initial_coaching_credits` / `coaching_credit_cap` — every call raises
`TypeError` (unexpected keyword argument) and registers nothing. -/
def createPlayerWallet (sys : MonSys) (pid : String)
    (initial_coins initial_gems initial_credits credits_cap : Int) :
    Except PyErr (MonSys × PlayerWallet) :=
  .error .typeError

/-- `EconomicMonitoringSystem.process_transaction`: find the wallet,
alias-resolve the currency, delegate positive amounts to `add_currency`
and the rest to `spend_currency` with `abs(amount)`, and on success track
the transaction and refresh the resource-distribution snapshot.  The
`week` argument stands for the ISO week of `datetime.now()` at tracking
time. -/
def monProcessTransaction (sys : MonSys) (pid currency : String) (amount : Int)
    (src : String) (week : Nat) :
    Except PyErr (Bool × MonSys × Option TxRecord) :=
  match dlookup sys.wallets pid with
  | none => .ok (false, sys, none)
  | some w =>
    let cur := resolveAlias currency
    let attempt :=
      if amount > 0 then addCurrency w cur amount src
      else spendCurrency w cur |amount| src
    match attempt with
    | .error e => .error e
    | .ok (success, w1, rec) =>
      let sys1 := { sys with wallets := dset sys.wallets pid w1 }
      if success then
        let ttype := if amount > 0 then "earn" else "spend"
        let m1 := trackTransaction sys1.metrics (pyLower cur) pid amount ttype src week
        let dist := dget m1.resource_distribution (pyLower cur) []
        let dist1 := dset m1.resource_distribution (pyLower cur) (dset dist pid (w1.get_balance cur))
        let m2 := { m1 with resource_distribution := dist1 }
        .ok (true, { sys1 with metrics := m2 }, rec)
      else
        .ok (false, sys1, rec)

/-! ### Helper lemmas -/

theorem dlookup_mem {κ α : Type} [DecidableEq κ] (d : List (κ × α)) (k : κ) (v : α)
    (h : dlookup d k = some v) : (k, v) ∈ d := by
  induction d with
  | nil => simp [dlookup] at h
  | cons hd tl ih =>
    obtain ⟨k0, v0⟩ := hd
    by_cases h1 : k0 = k
    · simp only [dlookup, if_pos h1] at h
      cases h
      subst h1
      exact List.mem_cons_self _ _
    · simp only [dlookup, if_neg h1] at h
      exact List.mem_cons_of_mem _ (ih h)

theorem dlookup_eq_none_of_not_mem {κ α : Type} [DecidableEq κ] (d : List (κ × α)) (k : κ) :
    k ∉ d.map Prod.fst → dlookup d k = none := by
  induction d with
  | nil => intro _; rfl
  | cons hd tl ih =>
    intro h
    obtain ⟨k0, v0⟩ := hd
    simp only [List.map_cons, List.mem_cons, not_or] at h
    obtain ⟨h1, h2⟩ := h
    have h1' : k0 ≠ k := fun e => h1 e.symm
    simp only [dlookup, if_neg h1']
    exact ih h2

theorem nonneg_dset {κ : Type} [DecidableEq κ] (d : List (κ × Int)) (k : κ) (v : Int)
    (hd : ∀ p ∈ d, 0 ≤ p.2) (hv : 0 ≤ v) : ∀ p ∈ dset d k v, 0 ≤ p.2 := by
  intro p hp
  rcases mem_dset d k v p hp with h | h
  · exact hd p h
  · subst h; exact hv

/-! ### Claim C6 — corrupt primary store on load -/

/-- A `GameStateManager` whose primary store exists but is corrupt. -/
def gsmCorrupt : GSMState EconMem ITx :=
  { mainFile := some .corrupt, rollbackStack := [], maxRollback := 10,
    transactionLog := [] }

/-- C6: the claim (and spec §7) requires a corrupt primary store to fail
the load with an error that propagates, distinguishable from the
missing-store sentinel.  The code instead catches the deserialization
exception and returns `None` — exactly the missing-store sentinel — so a
corrupt store silently falls back to the empty economy.  This theorem
evaluates `load_game_state` at the failing input: the corrupt-store
result equals the missing-store result (both `none`), while a healthy
store loads. -/
theorem c6_corrupt_load_returns_missing_sentinel :
    loadGameState gsmCorrupt = none ∧
    loadGameState (gsmInit : GSMState EconMem ITx) = none ∧
    loadGameState { gsmCorrupt with mainFile := some (.good econMemInit) } =
      some econMemInit :=
  ⟨rfl, rfl, rfl⟩

/-! ### Claim C9 — mitigate_inflation always raises NameError -/

/-- C9: the claim says `mitigate_inflation` always returns a mitigation
plan.  The code builds the plan dict with the undefined name
`currency_type` (its parameter is `currency`), so every call raises an
uncaught `NameError` and no plan is ever returned. -/
theorem c9_mitigate_inflation_always_raises :
    ∀ (m : EMetrics) (currency : String),
      mitigateInflation m currency = .error .nameError := by
  intro m currency
  rfl

/-! ### Claim C2 — capped-currency add truncation -/

/-- A wallet already at its coaching-credit cap (balance 100, cap 100). -/
def walletAtCap : PlayerWallet := PlayerWallet.init "player_cap" 0 0 0 100 100

/-- C2 counterexample: the claim says an add to a capped-currency wallet
already at its cap "fails with CapReached and no balance changes".  At
balance 100 = cap 100, `add_currency("CoachingCredit", 10)` SUCCEEDS
(returns `True`): the balance stays at the cap and the logged record
reports an applied amount of 0 with the whole 10 discarded, but no
failure is signalled. -/
theorem c2_counterexample :
    addCurrency walletAtCap "CoachingCredit" 10 "EventBonus" =
      .ok (true,
        { walletAtCap with balances := dset walletAtCap.balances "CoachingCredit" 100 },
        some { currency := "CoachingCredit", amount := 0, ttype := "Earn",
               source := "EventBonus", cap_reached := true,
               excess_amount_discarded := some 10 }) := by
  rfl

/-- C2 (amended): for a wallet whose capped-currency balance is `b ≤ cap`,
`PlayerWallet.add_currency` of `a > 0` applies exactly `min a (cap − b)`;
when `b + a` exceeds the cap the logged record reports the discarded
excess `b + a − cap`; when the truncated amount is 0 (balance already at
cap) `add_currency` still SUCCEEDS with applied amount 0 and the whole
amount reported as discarded (no balance change, no failure) — the
CapReached failure exists only on the `IntegratedEconomicSystem.
process_transaction` path, which at cap returns failure with no balance
change, and whose sub-cap truncated add succeeds with the balance raised
exactly to the cap (its journal record carries the truncated amount, not
the discarded excess). -/
theorem c2_capped_add_truncation :
    (∀ (w : PlayerWallet) (b a : Int) (src : String),
      dlookup w.balances "CoachingCredit" = some b →
      b ≤ w.coaching_credit_cap → 0 < a →
      addCurrency w "CoachingCredit" a src =
        .ok (true,
          { w with balances := dset w.balances "CoachingCredit" (b + min a (w.coaching_credit_cap - b)) },
          some (if w.coaching_credit_cap < b + a then
            { currency := "CoachingCredit",
              amount := min a (w.coaching_credit_cap - b), ttype := "Earn",
              source := src, cap_reached := true,
              excess_amount_discarded := some (b + a - w.coaching_credit_cap) }
          else
            { currency := "CoachingCredit", amount := a, ttype := "Earn",
              source := src })))
  ∧ (∀ (w : PlayerWallet) (a : Int) (src : String),
      dlookup w.balances "CoachingCredit" = some w.coaching_credit_cap → 0 < a →
      ∃ w1 rec, addCurrency w "CoachingCredit" a src = .ok (true, w1, some rec) ∧
        w1.balances = w.balances ∧ rec.amount = 0 ∧
        rec.excess_amount_discarded = some a)
  ∧ (∀ (s : Sys) (pid : String) (wallet : IWallet) (cb a : Int) (src : String),
      dlookup s.mem.wallets (normalizePlayerId pid) = some wallet →
      dlookup wallet.current_balances "credits" = some cb →
      dget wallet.max_capacities "credits" 0 ≤ cb → 0 < a →
      processTransaction s pid "credits" a src false = (s, false))
  ∧ (∀ (s : Sys) (pid : String) (wallet : IWallet) (cb a : Int) (src : String),
      dlookup s.mem.wallets (normalizePlayerId pid) = some wallet →
      dlookup wallet.current_balances "credits" = some cb →
      cb < dget wallet.max_capacities "credits" 0 →
      dget wallet.max_capacities "credits" 0 < cb + a →
      (processTransaction s pid "credits" a src false).2 = true ∧
      ∃ wallet1,
        dlookup ((processTransaction s pid "credits" a src false).1).mem.wallets
          (normalizePlayerId pid) = some wallet1 ∧
        dlookup wallet1.current_balances "credits" =
          some (dget wallet.max_capacities "credits" 0)) := by
  constructor
  · intro w b a src hb hle ha
    unfold addCurrency
    rw [if_neg (not_le.mpr ha), if_pos rfl, hb]
    by_cases hc : b + a > w.coaching_credit_cap
    · have h1 : w.coaching_credit_cap = b + min a (w.coaching_credit_cap - b) := by omega
      have h2 : a - (b + a - w.coaching_credit_cap) =
          min a (w.coaching_credit_cap - b) := by omega
      simp only [if_pos hc, if_pos (show w.coaching_credit_cap < b + a by omega), h2]
      rw [← h1]
    · have h1 : b + a = b + min a (w.coaching_credit_cap - b) := by omega
      simp only [if_neg hc, if_neg (show ¬ w.coaching_credit_cap < b + a by omega)]
      rw [← h1]
  constructor
  · intro w a src hb ha
    refine ⟨{ w with balances := dset w.balances "CoachingCredit" w.coaching_credit_cap },
      { currency := "CoachingCredit", amount := 0, ttype := "Earn", source := src,
        cap_reached := true, excess_amount_discarded := some a }, ?_, ?_, rfl, rfl⟩
    · unfold addCurrency
      rw [if_neg (not_le.mpr ha), if_pos rfl, hb]
      have hc : w.coaching_credit_cap + a > w.coaching_credit_cap := by omega
      simp only [if_pos hc]
      have h2 : a - (w.coaching_credit_cap + a - w.coaching_credit_cap) = 0 := by omega
      have h3 : w.coaching_credit_cap + a - w.coaching_credit_cap = a := by omega
      rw [h2, h3]
    · exact dset_lookup_eq _ _ _ hb
  constructor
  · intro s pid wallet cb a src hw hb hcap ha
    have hcur : resolveAlias "credits" = "credits" := by decide
    have habs : (0 : Int) < |a| := abs_pos.mpr (by omega)
    have e0 : (if (false = true) then (saveGameState s.gsm s.mem true).1 else s.gsm) = s.gsm := rfl
    have e1 : (if a > 0 then ("earn" : String) else "spend") = "earn" := if_pos ha
    have hne1 : ¬ (("earn" : String) = "spend") := by decide
    have hgt : cb + |a| > dget wallet.max_capacities "credits" 0 := by omega
    have hz : max (dget wallet.max_capacities "credits" 0 - cb) 0 = (0 : Int) := by omega
    unfold processTransaction
    simp only [hw, hcur, hb, e0, e1, hne1, false_and, if_false, if_pos hgt, hz]
    simp
  · intro s pid wallet cb a src hw hb hlt hsum
    have hcur : resolveAlias "credits" = "credits" := by decide
    have ha : 0 < a := by
      by_contra hna
      have : |a| = -a := abs_of_nonpos (by omega)
      omega
    have habs : |a| = a := abs_of_pos ha
    have e1 : (if a > 0 then ("earn" : String) else "spend") = "earn" := if_pos ha
    have hne1 : ¬ (("earn" : String) = "spend") := by decide
    have hgt : cb + |a| > dget wallet.max_capacities "credits" 0 := by omega
    have hz : max (dget wallet.max_capacities "credits" 0 - cb) 0 =
        dget wallet.max_capacities "credits" 0 - cb := by omega
    have hnz : ¬ (dget wallet.max_capacities "credits" 0 - cb = 0) := by omega
    unfold processTransaction
    simp only [hw, hcur, hb, e1, hne1, false_and, if_false, if_pos hgt, hz, hnz]
    simp only [eq_self_iff_true, true_and, and_true, if_true, and_false, if_false]
    rw [if_neg hnz]
    refine ⟨rfl, ?_⟩
    refine ⟨_, dlookup_dset_self _ _ _, ?_⟩
    have hcb : cb + (dget wallet.max_capacities "credits" 0 - cb) =
        dget wallet.max_capacities "credits" 0 := by omega
    simp only [hcb]
    exact dlookup_dset_self _ _ _

/-! ### Claim C1 — spend never drives a balance negative -/

/-- One wallet mutation preserves non-negative balances (given a
non-negative cap) and never changes the configured cap. -/
theorem wallet_wrun_preserves (w : PlayerWallet) (op : WOp)
    (hcap : 0 ≤ w.coaching_credit_cap) (hb : NonNegBalances w) :
    NonNegBalances (wrun w op) ∧
      (wrun w op).coaching_credit_cap = w.coaching_credit_cap := by
  cases op with
  | add c a s =>
    rcases h : addCurrency w c a s with e | ⟨bb, w1, r⟩
    · simp only [wrun]
      rw [h]
      exact ⟨hb, rfl⟩
    · simp only [wrun]
      rw [h]
      unfold addCurrency at h
      by_cases ha : a ≤ 0
      · rw [if_pos ha] at h
        simp only [Except.ok.injEq, Prod.mk.injEq] at h
        obtain ⟨-, h2, -⟩ := h
        subst h2
        exact ⟨hb, rfl⟩
      · rw [if_neg ha] at h
        by_cases hc : c = "CoachingCredit"
        · rw [if_pos hc] at h
          cases hl : dlookup w.balances "CoachingCredit" with
          | none => rw [hl] at h; cases h
          | some b =>
            rw [hl] at h
            have hbnn : 0 ≤ b := hb _ (dlookup_mem _ _ _ hl)
            by_cases hover : b + a > w.coaching_credit_cap
            · simp only [if_pos hover, Except.ok.injEq, Prod.mk.injEq] at h
              obtain ⟨-, h2, -⟩ := h
              subst h2
              exact ⟨nonneg_dset _ _ _ hb hcap, rfl⟩
            · simp only [if_neg hover, Except.ok.injEq, Prod.mk.injEq] at h
              obtain ⟨-, h2, -⟩ := h
              subst h2
              exact ⟨nonneg_dset _ _ _ hb (by omega), rfl⟩
        · rw [if_neg hc] at h
          cases hl : dlookup w.balances c with
          | none => rw [hl] at h; cases h
          | some b =>
            rw [hl] at h
            have hbnn : 0 ≤ b := hb _ (dlookup_mem _ _ _ hl)
            simp only [Except.ok.injEq, Prod.mk.injEq] at h
            obtain ⟨-, h2, -⟩ := h
            subst h2
            exact ⟨nonneg_dset _ _ _ hb (by omega), rfl⟩
  | spend c a s =>
    rcases h : spendCurrency w c a s with e | ⟨bb, w1, r⟩
    · simp only [wrun]
      rw [h]
      exact ⟨hb, rfl⟩
    · simp only [wrun]
      rw [h]
      unfold spendCurrency at h
      by_cases ha : a ≤ 0
      · rw [if_pos ha] at h
        simp only [Except.ok.injEq, Prod.mk.injEq] at h
        obtain ⟨-, h2, -⟩ := h
        subst h2
        exact ⟨hb, rfl⟩
      · rw [if_neg ha] at h
        by_cases hlow : dget w.balances c 0 < a
        · rw [if_pos hlow] at h
          simp only [Except.ok.injEq, Prod.mk.injEq] at h
          obtain ⟨-, h2, -⟩ := h
          subst h2
          exact ⟨hb, rfl⟩
        · rw [if_neg hlow] at h
          cases hl : dlookup w.balances c with
          | none => rw [hl] at h; cases h
          | some b =>
            rw [hl] at h
            have hget : dget w.balances c 0 = b := by
              unfold dget
              rw [hl]
              rfl
            simp only [Except.ok.injEq, Prod.mk.injEq] at h
            obtain ⟨-, h2, -⟩ := h
            subst h2
            exact ⟨nonneg_dset _ _ _ hb (by omega), rfl⟩

/-- Any sequence of wallet mutations keeps every balance non-negative. -/
theorem wallet_ops_nonneg (ops : List WOp) : ∀ (w : PlayerWallet),
    0 ≤ w.coaching_credit_cap → NonNegBalances w →
    NonNegBalances (ops.foldl wrun w) := by
  induction ops with
  | nil => intro w _ hb; exact hb
  | cons op rest ih =>
    intro w hcap hb
    have h := wallet_wrun_preserves w op hcap hb
    exact ih _ (by rw [h.2]; exact hcap) h.1

/-- `(l ++ [x]).getLast? = some x`. -/
theorem getLast?_append_single {α : Type} (l : List α) (x : α) :
    (l ++ [x]).getLast? = some x := by
  simp

/-- `process_transaction` preserves non-negativity of every balance of
every wallet, for any request whatsoever. -/
theorem process_preserves_nonneg (s : Sys) (pid cur : String) (a : Int)
    (src : String) (rb : Bool)
    (hn : ∀ q ∈ s.mem.wallets, ∀ p ∈ q.2.current_balances, 0 ≤ p.2) :
    ∀ q ∈ ((processTransaction s pid cur a src rb).1).mem.wallets,
      ∀ p ∈ q.2.current_balances, 0 ≤ p.2 := by
  unfold processTransaction
  cases hw : dlookup s.mem.wallets (normalizePlayerId pid) with
  | none => simp only [hw]; exact hn
  | some wallet =>
    simp only [hw]
    have hwmem := dlookup_mem _ _ _ hw
    cases hcb : dlookup wallet.current_balances (resolveAlias cur) with
    | none => simp only [hcb]; exact hn
    | some cb =>
      simp only [hcb]
      have hcbm := dlookup_mem _ _ _ hcb
      have hcb0 : 0 ≤ cb := hn _ hwmem _ hcbm
      by_cases hA : a > 0
      · have e1 : (if a > 0 then ("earn" : String) else "spend") = "earn" := if_pos hA
        have hne1 : ¬ (("earn" : String) = "spend") := by decide
        simp only [e1, hne1, false_and, if_false]
        by_cases hcr : resolveAlias cur = "credits"
        · simp only [hcr, eq_self_iff_true, and_self, true_and, if_true]
          by_cases hd0 : (if cb + |a| > dget wallet.max_capacities "credits" 0 then
              max (dget wallet.max_capacities "credits" 0 - cb) 0 else |a|) = 0
          · simp only [if_pos hd0]
            exact hn
          · simp only [if_neg hd0, if_true]
            intro q hq
            rcases mem_dset _ _ _ _ hq with hql | hql
            · exact hn q hql
            · subst hql
              intro p hp
              rcases mem_dset _ _ _ _ hp with hpl | hpl
              · exact hn _ hwmem _ hpl
              · subst hpl
                have hdnn : (0 : Int) ≤ (if cb + |a| > dget wallet.max_capacities "credits" 0
                    then max (dget wallet.max_capacities "credits" 0 - cb) 0 else |a|) := by
                  split
                  · exact le_max_right _ _
                  · exact abs_nonneg a
                simp only [eq_self_iff_true, if_true]
                omega
        · simp only [hcr, and_false, false_and, if_false]
          intro q hq
          rcases mem_dset _ _ _ _ hq with hql | hql
          · exact hn q hql
          · subst hql
            intro p hp
            rcases mem_dset _ _ _ _ hp with hpl | hpl
            · exact hn _ hwmem _ hpl
            · subst hpl
              have := abs_nonneg a
              simp only [eq_self_iff_true, if_true]
              omega
      · have e1 : (if a > 0 then ("earn" : String) else "spend") = "spend" := if_neg hA
        have hne1 : ¬ (("spend" : String) = "earn") := by decide
        simp only [e1, hne1, eq_self_iff_true, true_and, false_and, if_false]
        by_cases hlow : cb < |a|
        · simp only [if_pos hlow]
          exact hn
        · simp only [if_neg hlow]
          intro q hq
          rcases mem_dset _ _ _ _ hq with hql | hql
          · exact hn q hql
          · subst hql
            intro p hp
            rcases mem_dset _ _ _ _ hp with hpl | hpl
            · exact hn _ hwmem _ hpl
            · subst hpl
              simp only [hne1, if_false, false_and]
              omega

/-- C1: for every player, currency and amount `a > 0`, a spend against a
balance `< a` fails with an InsufficientFunds record and leaves the
wallet unchanged (all-or-nothing); any sequence of add/spend wallet
operations from non-negative balances (with a non-negatively configured
cap) keeps every balance `≥ 0`; and the `process_transaction` entry
point likewise preserves non-negativity of all balances and rejects an
insufficient spend with no state change, journalling the failure. -/
theorem c1_spend_nonnegative :
    (∀ (w : PlayerWallet) (cur : String) (a : Int) (src : String),
        0 < a → dget w.balances cur 0 < a →
        spendCurrency w cur a src =
          .ok (false, w,
            some { currency := cur, amount := -a, ttype := "Spend",
                   source := src ++ "_Failed",
                   failure_reason := some "InsufficientFunds" }))
  ∧ (∀ (w : PlayerWallet) (ops : List WOp),
        0 ≤ w.coaching_credit_cap → NonNegBalances w →
        NonNegBalances (ops.foldl wrun w))
  ∧ (∀ (s : Sys) (pid cur : String) (a : Int) (src : String) (rb : Bool),
        (∀ q ∈ s.mem.wallets, ∀ p ∈ q.2.current_balances, 0 ≤ p.2) →
        ∀ q ∈ ((processTransaction s pid cur a src rb).1).mem.wallets,
          ∀ p ∈ q.2.current_balances, 0 ≤ p.2)
  ∧ (∀ (s : Sys) (pid cur : String) (wallet : IWallet) (cb a : Int)
        (src : String) (rb : Bool),
        dlookup s.mem.wallets (normalizePlayerId pid) = some wallet →
        dlookup wallet.current_balances (resolveAlias cur) = some cb →
        a < 0 → cb < -a →
        (processTransaction s pid cur a src rb).2 = false ∧
        (processTransaction s pid cur a src rb).1.mem = s.mem ∧
        ((processTransaction s pid cur a src rb).1.gsm.transactionLog).getLast? =
          some (failTx (normalizePlayerId pid) (resolveAlias cur) a src
            "InsufficientFunds")) := by
  refine ⟨?_, ?_, ?_, ?_⟩
  · intro w cur a src h0 hlow
    unfold spendCurrency
    rw [if_neg (not_le.mpr h0), if_pos hlow]
  · intro w ops hcap hb
    exact wallet_ops_nonneg ops w hcap hb
  · intro s pid cur a src rb hn
    exact process_preserves_nonneg s pid cur a src rb hn
  · intro s pid cur wallet cb a src rb hw hcb ha hlow
    have e1 : (if a > 0 then ("earn" : String) else "spend") = "spend" :=
      if_neg (by omega)
    have habs : |a| = -a := abs_of_neg (by omega)
    unfold processTransaction
    simp only [hw, hcb, e1]
    rw [if_pos (show True ∧ cb < |a| from ⟨trivial, by omega⟩)]
    refine ⟨rfl, rfl, ?_⟩
    simp only [gsmLogTransaction]
    exact getLast?_append_single _ _

/-- The wallet of integration Test Case 3 (player_Bob). -/
def walletBob : PlayerWallet := PlayerWallet.init "player_Bob" 500 10 5 0 50

/-- A short mutation sequence exercising add and spend. -/
def opsDemo : List WOp :=
  [WOp.add "Soft" 200 "DailyLoginBonus", WOp.spend "Premium" 10 "CosmeticPurchase",
   WOp.spend "Soft" 1000 "PlayerUpgrade", WOp.add "CoachingCredit" 60 "SeasonReward"]

/-- A canonical player id used by the concrete system states. -/
def pid1 : String := "11111111-2222-4333-8444-555555555555"

/-- A reachable system state with one player (coins 1000, gems 50,
credits 20 with cap 100). -/
def sysDemo : Sys := runOps sysInit [SysOp.create pid1 1000 50 20 100]

/-- The wallet dict `sysDemo` stores for `pid1`. -/
def wallet1 : IWallet :=
  { current_balances := [("coins", 1000), ("gems", 50), ("credits", 20)],
    max_capacities := [("coins", 10000), ("gems", 500), ("credits", 100)] }

/-- C1 witness: each clause of `c1_spend_nonnegative` applied at a
concrete input — Test Case 3 insufficient spend, the demo operation
sequence, and an insufficient 100-gem spend on a 50-gem balance. -/
theorem c1_spend_nonnegative_witness :
    spendCurrency walletBob "Soft" 1000 "PlayerUpgrade" =
      .ok (false, walletBob,
        some { currency := "Soft", amount := -1000, ttype := "Spend",
               source := "PlayerUpgrade_Failed",
               failure_reason := some "InsufficientFunds" })
  ∧ NonNegBalances (opsDemo.foldl wrun walletBob)
  ∧ (∀ q ∈ ((processTransaction sysDemo pid1 "coins" 100 "daily_login_bonus" true).1).mem.wallets,
      ∀ p ∈ q.2.current_balances, 0 ≤ p.2)
  ∧ (processTransaction sysDemo pid1 "gems" (-100) "expensive_item" true).2 = false
  ∧ (processTransaction sysDemo pid1 "gems" (-100) "expensive_item" true).1.mem = sysDemo.mem := by
  have h4 := c1_spend_nonnegative.2.2.2 sysDemo pid1 "gems" wallet1 50 (-100)
    "expensive_item" true (by decide) (by decide) (by decide) (by decide)
  exact ⟨c1_spend_nonnegative.1 walletBob "Soft" 1000 "PlayerUpgrade" (by decide) (by decide),
    c1_spend_nonnegative.2.1 walletBob opsDemo (by decide) (by decide),
    c1_spend_nonnegative.2.2.1 sysDemo pid1 "coins" 100 "daily_login_bonus" true (by decide),
    h4.1, h4.2.1⟩

/-! ### Claim C7 — rejection of non-positive amounts -/

/-- C7 counterexample: the claim says an amount of 0 submitted through
`IntegratedEconomicSystem.process_transaction` is rejected with
InvalidAmount.  On a reachable state with a live player, amount 0 is
PROCESSED SUCCESSFULLY (returned status `True`) as a zero-amount spend:
no InvalidAmount rejection exists on that path. -/
theorem c7_counterexample :
    (processTransaction sysDemo pid1 "coins" 0 "zero_amount" true).2 = true := by
  decide

/-- C7 (amended): `PlayerWallet.add_currency` and
`PlayerWallet.spend_currency` reject every amount `≤ 0` (return `False`,
wallet unchanged, nothing logged), and the monitoring facade
`EconomicMonitoringSystem.process_transaction` rejects amount 0 through
the wallet (state unchanged); but `IntegratedEconomicSystem.
process_transaction` accepts amount 0 as a successful zero-amount spend:
it returns success, changes no balance, and counts the transaction. -/
theorem c7_amount_nonpositive_policy :
    (∀ (w : PlayerWallet) (cur : String) (a : Int) (src : String),
        a ≤ 0 → addCurrency w cur a src = .ok (false, w, none))
  ∧ (∀ (w : PlayerWallet) (cur : String) (a : Int) (src : String),
        a ≤ 0 → spendCurrency w cur a src = .ok (false, w, none))
  ∧ (∀ (sys : MonSys) (pid cur src : String) (wk : Nat),
        monProcessTransaction sys pid cur 0 src wk = .ok (false, sys, none))
  ∧ (∀ (s : Sys) (pid cur : String) (wallet : IWallet) (cb : Int)
        (src : String) (rb : Bool),
        dlookup s.mem.wallets (normalizePlayerId pid) = some wallet →
        dlookup wallet.current_balances (resolveAlias cur) = some cb →
        0 ≤ cb →
        (processTransaction s pid cur 0 src rb).2 = true ∧
        (processTransaction s pid cur 0 src rb).1.mem.wallets = s.mem.wallets ∧
        (processTransaction s pid cur 0 src rb).1.mem.totalTransactions =
          s.mem.totalTransactions + 1) := by
  refine ⟨?_, ?_, ?_, ?_⟩
  · intro w cur a src ha
    unfold addCurrency
    rw [if_pos ha]
  · intro w cur a src ha
    unfold spendCurrency
    rw [if_pos ha]
  · intro sys pid cur src wk
    unfold monProcessTransaction
    cases hl : dlookup sys.wallets pid with
    | none => simp only [hl]
    | some w =>
      simp only [hl]
      have hgt : ¬ ((0 : Int) > 0) := by omega
      rw [if_neg hgt]
      have hsp : spendCurrency w (resolveAlias cur) |(0 : Int)| src =
          .ok (false, w, none) := by
        unfold spendCurrency
        rw [if_pos (by simp : |(0 : Int)| ≤ 0)]
      simp only [hsp]
      rw [if_neg Bool.false_ne_true, dset_lookup_eq _ _ _ hl]
  · intro s pid cur wallet cb src rb hw hcb hcb0
    have e1 : (if (0 : Int) > 0 then ("earn" : String) else "spend") = "spend" :=
      if_neg (by omega)
    have hne1 : ¬ (("spend" : String) = "earn") := by decide
    unfold processTransaction
    simp only [hw, hcb, e1, abs_zero, hne1, false_and, if_false]
    rw [if_neg (show ¬ (True ∧ cb < 0) from fun h => absurd h.2 (by omega))]
    simp only [neg_zero, add_zero]
    rw [dset_lookup_eq _ _ _ hcb]
    have ew : IWallet.mk wallet.current_balances wallet.max_capacities = wallet := rfl
    rw [ew, dset_lookup_eq _ _ _ hw]
    exact ⟨by trivial, by trivial, by trivial⟩

/-- C7 witness: the amended theorem applied at concrete inputs: an add
of 0 and a spend of −5 on player_Bob, amount 0 through a fresh
monitoring facade, and amount 0 through `process_transaction` on the
demo state. -/
theorem c7_amount_nonpositive_policy_witness :
    addCurrency walletBob "Soft" 0 "Nothing" = .ok (false, walletBob, none)
  ∧ spendCurrency walletBob "Soft" (-5) "Nothing" = .ok (false, walletBob, none)
  ∧ monProcessTransaction monInit "nobody" "coins" 0 "Nothing" 1 =
      .ok (false, monInit, none)
  ∧ (processTransaction sysDemo pid1 "coins" 0 "zero_spend" true).2 = true
  ∧ (processTransaction sysDemo pid1 "coins" 0 "zero_spend" true).1.mem.wallets =
      sysDemo.mem.wallets := by
  have h4 := c7_amount_nonpositive_policy.2.2.2 sysDemo pid1 "coins" wallet1 1000
    "zero_spend" true (by decide) (by decide) (by decide)
  exact ⟨c7_amount_nonpositive_policy.1 walletBob "Soft" 0 "Nothing" (by decide),
    c7_amount_nonpositive_policy.2.1 walletBob "Soft" (-5) "Nothing" (by decide),
    c7_amount_nonpositive_policy.2.2.1 monInit "nobody" "coins" "Nothing" 1,
    h4.1, h4.2.1⟩

/-! ### Claim C4 — rollback stack bound, eviction, pop semantics -/

/-- `(l ++ [x]).dropLast = l`. -/
theorem dropLast_append_single {α : Type} (l : List α) (x : α) :
    (l ++ [x]).dropLast = l := by
  simp

/-- One persistence request keeps the stack within the bound and leaves
the bound itself unchanged. -/
theorem grun_stack_bound {α β : Type} (g : GSMState α β) (op : GOp α)
    (h : g.rollbackStack.length ≤ g.maxRollback) :
    (grun g op).rollbackStack.length ≤ (grun g op).maxRollback ∧
    (grun g op).maxRollback = g.maxRollback := by
  cases op with
  | save st b =>
    simp only [grun, saveGameState]
    cases hm : g.mainFile with
    | none => cases b <;> simp only [hm] <;> exact ⟨h, by trivial⟩
    | some c =>
      cases b with
      | false => simp only [hm]; exact ⟨h, by trivial⟩
      | true =>
        simp only [hm, createBackup]
        by_cases hl : (g.rollbackStack ++ [c]).length > g.maxRollback
        · rw [if_pos hl]
          refine ⟨?_, by trivial⟩
          simp only [List.length_drop, List.length_append, List.length_singleton] at hl ⊢
          omega
        · rw [if_neg hl]
          refine ⟨?_, by trivial⟩
          simp only [List.length_append, List.length_singleton] at hl ⊢
          omega
  | rollback =>
    simp only [grun, rollbackToPreviousState]
    cases hm : g.rollbackStack.getLast? with
    | none => simp only [hm]; exact ⟨h, by trivial⟩
    | some bk =>
      simp only [hm]
      refine ⟨?_, by trivial⟩
      simp only [List.length_dropLast]
      omega

/-- Any request sequence keeps the stack within the (preserved) bound. -/
theorem grunAll_stack_bound {α β : Type} (ops : List (GOp α)) :
    ∀ g : GSMState α β, g.rollbackStack.length ≤ g.maxRollback →
    (grunAll g ops).rollbackStack.length ≤ (grunAll g ops).maxRollback ∧
    (grunAll g ops).maxRollback = g.maxRollback := by
  induction ops with
  | nil => intro g h; exact ⟨h, rfl⟩
  | cons op rest ih =>
    intro g h
    have h1 := grun_stack_bound g op h
    have h2 := ih (grun g op) h1.1
    exact ⟨h2.1, h2.2.trans h1.2⟩

/-- C4: after any sequence of saves and rollbacks from a fresh
`GameStateManager`, the rollback stack never exceeds its bound of 10;
a backed-up save on a full stack evicts exactly the oldest entry
(deleting its file, modelled by its removal); `rollback()` on an empty
stack fails and is a no-op; on a non-empty stack it pops exactly the
most recent entry, restores it over the primary store, and deletes the
popped backup. -/
theorem c4_rollback_stack_state_machine :
    (∀ ops : List (GOp EconMem),
        (grunAll (gsmInit : GSMState EconMem ITx) ops).rollbackStack.length ≤ 10)
  ∧ (∀ (g : GSMState EconMem ITx) (st : EconMem) (c : FileData EconMem),
        g.rollbackStack.length = g.maxRollback → 1 ≤ g.maxRollback →
        g.mainFile = some c →
        (saveGameState g st true).1.rollbackStack =
          g.rollbackStack.drop 1 ++ [c])
  ∧ (∀ g : GSMState EconMem ITx, g.rollbackStack = [] →
        rollbackToPreviousState g = (g, false))
  ∧ (∀ (g : GSMState EconMem ITx) (l : List (FileData EconMem))
        (b : FileData EconMem),
        g.rollbackStack = l ++ [b] →
        rollbackToPreviousState g =
          ({ g with rollbackStack := l, mainFile := some b }, true)) := by
  refine ⟨?_, ?_, ?_, ?_⟩
  · intro ops
    have h := grunAll_stack_bound ops (gsmInit : GSMState EconMem ITx)
      (by simp [gsmInit])
    have h10 : (gsmInit : GSMState EconMem ITx).maxRollback = 10 := rfl
    rw [← h10, ← h.2]
    exact h.1
  · intro g st c hlen hmax hm
    simp only [saveGameState, hm, createBackup]
    have hgt : (g.rollbackStack ++ [c]).length > g.maxRollback := by
      simp only [List.length_append, List.length_singleton]
      omega
    rw [if_pos hgt]
    have h1 : 1 ≤ g.rollbackStack.length := by omega
    rw [List.drop_append_of_le_length h1]
  · intro g h
    simp only [rollbackToPreviousState, h]
    rfl
  · intro g l b h
    simp only [rollbackToPreviousState, h, getLast?_append_single,
      dropLast_append_single]

/-- A `GameStateManager` with a full (10-entry) rollback stack. -/
def gsmFull : GSMState EconMem ITx :=
  { mainFile := some (.good econMemInit),
    rollbackStack := List.replicate 10 (FileData.good econMemInit),
    maxRollback := 10, transactionLog := [] }

/-- A `GameStateManager` with a single backup on the stack. -/
def gsmOne : GSMState EconMem ITx :=
  { mainFile := some (.good econMemInit),
    rollbackStack := [FileData.good econMemInit],
    maxRollback := 10, transactionLog := [] }

/-- C4 witness: the state-machine theorem applied at concrete states — a
two-save sequence from a fresh manager, a save onto the full stack, a
rollback on the empty stack, and a rollback on a one-entry stack. -/
theorem c4_rollback_stack_state_machine_witness :
    (grunAll (gsmInit : GSMState EconMem ITx)
        [GOp.save econMemInit true, GOp.save econMemInit true]).rollbackStack.length ≤ 10
  ∧ (saveGameState gsmFull econMemInit true).1.rollbackStack =
      gsmFull.rollbackStack.drop 1 ++ [FileData.good econMemInit]
  ∧ rollbackToPreviousState (gsmInit : GSMState EconMem ITx) =
      ((gsmInit : GSMState EconMem ITx), false)
  ∧ rollbackToPreviousState gsmOne =
      ({ gsmOne with rollbackStack := [], mainFile := some (FileData.good econMemInit) }, true) :=
  ⟨c4_rollback_stack_state_machine.1 _,
   c4_rollback_stack_state_machine.2.1 gsmFull econMemInit (FileData.good econMemInit)
     (by decide) (by decide) (by decide),
   c4_rollback_stack_state_machine.2.2.1 _ (by decide),
   c4_rollback_stack_state_machine.2.2.2 gsmOne [] (FileData.good econMemInit)
     (by decide)⟩

/-! ### Claim C3 — rollback round-trip -/

/-- Every backup on the stack is a deserializable (good) state. -/
def GoodStack (l : List (FileData EconMem)) : Prop :=
  ∀ x ∈ l, ∃ gst : EconMem, x = FileData.good gst

/-- The synchronization invariant of `IntegratedEconomicSystem`: the
bound is the configured 10, and either nothing was ever saved (fresh
memory, empty stack) or the primary store holds exactly the current
in-memory state and the stack holds only good backups. -/
def SysInv (s : Sys) : Prop :=
  s.gsm.maxRollback = 10 ∧
  ((s.gsm.mainFile = none ∧ s.mem = econMemInit ∧ s.gsm.rollbackStack = []) ∨
   (s.gsm.mainFile = some (.good s.mem) ∧ GoodStack s.gsm.rollbackStack))

/-- A save without backup only rewrites the primary store. -/
theorem saveGameState_false {α β : Type} (g : GSMState α β) (st : α) :
    (saveGameState g st false).1 = { g with mainFile := some (.good st) } := by
  simp only [saveGameState]
  cases g.mainFile <;> rfl

/-- A backed-up save when no primary store exists pushes nothing. -/
theorem saveGameState_true_none {α β : Type} (g : GSMState α β) (st : α)
    (h : g.mainFile = none) :
    (saveGameState g st true).1 = { g with mainFile := some (.good st) } := by
  simp only [saveGameState, h]

/-- A backed-up save over an existing primary store first pushes its
content onto the rollback stack. -/
theorem saveGameState_true_some {α β : Type} (g : GSMState α β) (st : α)
    (c : FileData α) (h : g.mainFile = some c) :
    (saveGameState g st true).1 =
      { createBackup g c with mainFile := some (.good st) } := by
  simp only [saveGameState, h]

/-- The entry just pushed by `_create_backup` is the most recent one. -/
theorem createBackup_getLast {α β : Type} (g : GSMState α β) (c : FileData α)
    (h : 1 ≤ g.maxRollback) :
    (createBackup g c).rollbackStack.getLast? = some c := by
  simp only [createBackup]
  by_cases hl : (g.rollbackStack ++ [c]).length > g.maxRollback
  · rw [if_pos hl]
    cases hs : g.rollbackStack with
    | nil =>
      rw [hs] at hl
      simp at hl
      omega
    | cons hd tl =>
      rw [List.cons_append]
      show (tl ++ [c]).getLast? = some c
      exact getLast?_append_single tl c
  · rw [if_neg hl]
    exact getLast?_append_single _ _

/-- Pushing a good backup keeps the stack good. -/
theorem goodStack_createBackup {β : Type} (g : GSMState EconMem β) (m : EconMem)
    (h : GoodStack g.rollbackStack) :
    GoodStack (createBackup g (.good m)).rollbackStack := by
  simp only [createBackup]
  have happ : GoodStack (g.rollbackStack ++ [FileData.good m]) := by
    intro x hx
    rcases List.mem_append.mp hx with hx | hx
    · exact h x hx
    · exact ⟨m, by simpa using hx⟩
  by_cases hl : (g.rollbackStack ++ [FileData.good m]).length > g.maxRollback
  · rw [if_pos hl]
    intro x hx
    exact happ x (List.mem_of_mem_drop hx)
  · rw [if_neg hl]
    exact happ

/-- `getLast? = some x` implies membership. -/
theorem mem_of_getLast?_eq {α : Type} : ∀ (l : List α) (x : α),
    l.getLast? = some x → x ∈ l := by
  intro l
  induction l with
  | nil => intro x h; cases h
  | cons hd tl ih =>
    intro x h
    cases htl : tl with
    | nil =>
      rw [htl] at h
      simp only [List.getLast?_singleton, Option.some.injEq] at h
      simp [h]
    | cons a as =>
      rw [htl] at h ih
      rw [List.getLast?_cons_cons] at h
      exact List.mem_cons_of_mem _ (ih x h)

/-- Each public operation preserves the synchronization invariant. -/
theorem sysInv_runOp (s : Sys) (op : SysOp) (h : SysInv s) : SysInv (runOp s op) := by
  obtain ⟨hmax, hcase⟩ := h
  have hgood : GoodStack s.gsm.rollbackStack := by
    rcases hcase with ⟨-, -, h3⟩ | ⟨-, h2⟩
    · rw [h3]; intro x hx; cases hx
    · exact h2
  cases op with
  | create pid c g cr cap =>
    simp only [runOp, createPlayer, autoSave]
    rw [saveGameState_false]
    exact ⟨hmax, Or.inr ⟨rfl, hgood⟩⟩
  | save =>
    simp only [runOp, saveGame]
    rcases hcase with ⟨h1, h2, h3⟩ | ⟨h1, h2⟩
    · rw [saveGameState_true_none _ _ h1]
      exact ⟨hmax, Or.inr ⟨rfl, hgood⟩⟩
    · rw [saveGameState_true_some _ _ _ h1]
      exact ⟨hmax, Or.inr ⟨rfl, goodStack_createBackup _ _ h2⟩⟩
  | rollback =>
    simp only [runOp, rollbackLastTransaction]
    cases hlast : s.gsm.rollbackStack.getLast? with
    | none => simp only [rollbackToPreviousState, hlast]; exact ⟨hmax, hcase⟩
    | some b =>
      obtain ⟨gmem, rfl⟩ := hgood b (mem_of_getLast?_eq _ _ hlast)
      simp only [rollbackToPreviousState, hlast, loadGame, loadGameState]
      refine ⟨hmax, Or.inr ⟨rfl, ?_⟩⟩
      intro x hx
      exact hgood x (List.dropLast_sublist _ |>.subset hx)
  | process pid cur a src rb =>
    simp only [runOp]
    unfold processTransaction
    cases hw : dlookup s.mem.wallets (normalizePlayerId pid) with
    | none => simp only [hw]; exact ⟨hmax, hcase⟩
    | some wallet =>
      simp only [hw]
      have h1 : s.gsm.mainFile = some (.good s.mem) := by
        rcases hcase with ⟨-, h2, -⟩ | ⟨h1, -⟩
        · exfalso
          rw [h2] at hw
          cases hw
        · exact h1
      cases hcb : dlookup wallet.current_balances (resolveAlias cur) with
      | none =>
        simp only [hcb]
        cases rb with
        | false =>
          rw [if_neg Bool.false_ne_true]
          exact ⟨hmax, Or.inr ⟨h1, hgood⟩⟩
        | true =>
          rw [if_pos rfl, saveGameState_true_some _ _ _ h1]
          exact ⟨hmax, Or.inr ⟨rfl, goodStack_createBackup _ _ hgood⟩⟩
      | some cb =>
        simp only [hcb]
        cases rb with
        | false =>
          rw [if_neg Bool.false_ne_true]
          repeat' split
          all_goals first
            | exact ⟨hmax, Or.inr ⟨h1, hgood⟩⟩
            | (rw [saveGameState_false]; exact ⟨hmax, Or.inr ⟨rfl, hgood⟩⟩)
        | true =>
          rw [if_pos rfl, saveGameState_true_some _ _ _ h1]
          have hgood2 : GoodStack (createBackup s.gsm (.good s.mem)).rollbackStack :=
            goodStack_createBackup _ _ hgood
          repeat' split
          all_goals exact ⟨hmax, Or.inr ⟨rfl, hgood2⟩⟩

/-- The invariant holds along any operation sequence. -/
theorem sysInv_runOps (ops : List SysOp) : ∀ s : Sys, SysInv s →
    SysInv (runOps s ops) := by
  induction ops with
  | nil => intro s h; exact h
  | cons op rest ih => intro s h; exact ih _ (sysInv_runOp s op h)

/-- The fresh system satisfies the invariant. -/
theorem sysInv_init : SysInv sysInit :=
  ⟨rfl, Or.inl ⟨rfl, rfl, rfl⟩⟩

/-- Every reachable state satisfies the invariant. -/
theorem reachable_sysInv (s : Sys) (h : Reachable s) : SysInv s := by
  obtain ⟨ops, rfl⟩ := h
  exact sysInv_runOps ops sysInit sysInv_init

/-- When the most recent backup is the good state `m`,
`rollback_last_transaction` succeeds and reloads exactly `m`. -/
theorem rollbackLast_restores (s1 : Sys) (m : EconMem)
    (hlast : s1.gsm.rollbackStack.getLast? = some (.good m)) :
    (rollbackLastTransaction s1).2 = true ∧
    (rollbackLastTransaction s1).1.mem = m := by
  unfold rollbackLastTransaction
  simp only [rollbackToPreviousState, hlast, loadGame, loadGameState]
  exact ⟨rfl, rfl⟩

/-- The post-mutation state written by a successful `process_transaction`
(journal append, auto-save of `m2` over a guard whose newest backup is
the good pre-state `m`) rolls back to exactly `m`, and carries the
pre-mutation backup on top of the stack with the post-mutation state in
the primary store. -/
theorem success_state_facts (g : GSMState EconMem ITx) (tx : ITx) (m m2 : EconMem)
    (hlast : g.rollbackStack.getLast? = some (.good m)) :
    (rollbackLastTransaction
        ⟨(saveGameState (gsmLogTransaction g tx) m2 false).1, m2⟩).2 = true ∧
    (rollbackLastTransaction
        ⟨(saveGameState (gsmLogTransaction g tx) m2 false).1, m2⟩).1.mem = m ∧
    ((saveGameState (gsmLogTransaction g tx) m2 false).1).rollbackStack.getLast? =
      some (.good m) ∧
    ((saveGameState (gsmLogTransaction g tx) m2 false).1).mainFile =
      some (.good m2) := by
  rw [saveGameState_false]
  have hl2 : ({ gsmLogTransaction g tx with mainFile := some (.good m2) } :
      GSMState EconMem ITx).rollbackStack.getLast? = some (FileData.good m) := hlast
  have h := rollbackLast_restores
    ⟨{ gsmLogTransaction g tx with mainFile := some (.good m2) }, m2⟩ m hl2
  exact ⟨h.1, h.2, hlast, rfl⟩

/-- C3: from any reachable state, a mutation processed with rollback
enabled and then `rollback_last_transaction` restores every wallet
balance and every metrics aggregate to its exact pre-mutation value; the
pre-mutation backup sits on top of the rollback stack (written before
the post-mutation state, which is what the primary store holds). -/
theorem c3_rollback_roundtrip (s s1 : Sys) (pid cur : String) (a : Int)
    (src : String) (hreach : Reachable s)
    (hp : processTransaction s pid cur a src true = (s1, true)) :
    (rollbackLastTransaction s1).2 = true ∧
    (rollbackLastTransaction s1).1.mem = s.mem ∧
    s1.gsm.rollbackStack.getLast? = some (.good s.mem) ∧
    s1.gsm.mainFile = some (.good s1.mem) := by
  obtain ⟨hmax, hcase⟩ := reachable_sysInv s hreach
  unfold processTransaction at hp
  cases hw : dlookup s.mem.wallets (normalizePlayerId pid) with
  | none => simp only [hw] at hp; simp at hp
  | some wallet =>
    simp only [hw] at hp
    have h1 : s.gsm.mainFile = some (.good s.mem) := by
      rcases hcase with ⟨-, h2, -⟩ | ⟨h1, -⟩
      · exfalso
        rw [h2] at hw
        cases hw
      · exact h1
    simp only [if_true] at hp
    rw [saveGameState_true_some s.gsm s.mem (FileData.good s.mem) h1] at hp
    cases hcb : dlookup wallet.current_balances (resolveAlias cur) with
    | none => simp only [hcb] at hp; simp at hp
    | some cb =>
      simp only [hcb] at hp
      repeat' split at hp
      all_goals (injection hp with hp1 hp2)
      all_goals first
        | exact (Bool.false_ne_true hp2).elim
        | (subst hp1
           exact success_state_facts _ _ _ _
             (createBackup_getLast s.gsm _ (by omega)))

/-- C3 witness: the round-trip theorem applied at the concrete reachable
demo state: a 200-coin spend with rollback enabled, then rollback,
restores the pre-mutation memory exactly. -/
theorem c3_rollback_roundtrip_witness :
    Reachable sysDemo ∧
    (rollbackLastTransaction
      ((processTransaction sysDemo pid1 "coins" (-200) "major_purchase" true).1)).2 = true ∧
    (rollbackLastTransaction
      ((processTransaction sysDemo pid1 "coins" (-200) "major_purchase" true).1)).1.mem =
      sysDemo.mem := by
  have hr : Reachable sysDemo := ⟨[SysOp.create pid1 1000 50 20 100], rfl⟩
  have h := c3_rollback_roundtrip sysDemo
    ((processTransaction sysDemo pid1 "coins" (-200) "major_purchase" true).1)
    pid1 "coins" (-200) "major_purchase" hr (by decide)
  exact ⟨hr, h.1, h.2.1⟩

/-! ### Claim C5 — inflation detection -/

/-- C5: `detect_inflation(currency, lookback_weeks)` returns
`(false, 0.0)` whenever fewer than `lookback_weeks` recorded weeks of
delta history exist, or the oldest delta of the sorted lookback window
is 0; otherwise it returns `rate = (newest − oldest) / |oldest|` with
`is_inflated ↔ rate > inflation_threshold` (default 0.15), and every
call whose rate exceeds the threshold appends a WARNING alert. -/
theorem c5_detect_inflation :
    (∀ (m : EMetrics) (cur : String) (lb : Nat),
        m.weekly_deltas.length < lb →
        detectInflation m cur lb = ((false, 0), m))
  ∧ (∀ (m : EMetrics) (cur : String) (lb : Nat) (rest : List ℚ),
        lb ≤ m.weekly_deltas.length →
        windowDeltas m (resolveAlias cur) lb = 0 :: rest →
        detectInflation m cur lb = ((false, 0), m))
  ∧ (∀ (m : EMetrics) (cur : String) (lb : Nat) (d0 : ℚ) (rest : List ℚ),
        lb ≤ m.weekly_deltas.length →
        windowDeltas m (resolveAlias cur) lb = d0 :: rest →
        d0 ≠ 0 →
        (detectInflation m cur lb).1.2 = ((d0 :: rest).getLastD 0 - d0) / |d0|
        ∧ ((detectInflation m cur lb).1.1 = true ↔
            ((d0 :: rest).getLastD 0 - d0) / |d0| > m.inflation_threshold)
        ∧ (((d0 :: rest).getLastD 0 - d0) / |d0| > m.inflation_threshold →
            (detectInflation m cur lb).2.active_alerts =
              m.active_alerts ++
                [{ level := .WARNING,
                   message := "Inflation detected in " ++ resolveAlias cur }]))
  ∧ emInit.inflation_threshold = 15 / 100 := by
  refine ⟨?_, ?_, ?_, rfl⟩
  · intro m cur lb h
    unfold detectInflation
    rw [if_pos h]
  · intro m cur lb rest hlen hw
    unfold detectInflation
    rw [if_neg (not_lt.mpr hlen)]
    simp only [hw, if_true]
  · intro m cur lb d0 rest hlen hw h0
    refine ⟨?_, ?_, ?_⟩
    · unfold detectInflation
      rw [if_neg (not_lt.mpr hlen)]
      simp only [hw, if_neg h0]
    · unfold detectInflation
      rw [if_neg (not_lt.mpr hlen)]
      simp only [hw, if_neg h0]
      exact decide_eq_true_iff
    · intro hgt
      unfold detectInflation
      rw [if_neg (not_lt.mpr hlen)]
      simp only [hw, if_neg h0, if_pos hgt, createAlert]

/-- Four consecutive weekly soft-currency deltas 100, 100, 100, 400. -/
def m4c : EMetrics :=
  { emInit with weekly_deltas :=
      [(1, [("coins", 100)]), (2, [("coins", 100)]), (3, [("coins", 100)]),
       (4, [("coins", 400)])] }

/-- C5 witness: the scenario — deltas [100, 100, 100, 400] with lookback
4 give rate (400 − 100) / 100 = 3.0, inflated, and a WARNING alert. -/
theorem c5_detect_inflation_witness :
    windowDeltas m4c "coins" 4 = [100, 100, 100, 400]
  ∧ (detectInflation m4c "coins" 4).1.2 = 3
  ∧ (detectInflation m4c "coins" 4).1.1 = true
  ∧ (detectInflation m4c "coins" 4).2.active_alerts =
      [{ level := .WARNING, message := "Inflation detected in coins" }] := by
  have hrate : (([(100 : ℚ), 100, 100, 400].getLastD 0 - 100)) / |(100 : ℚ)| = 3 := by
    norm_num [List.getLastD]
  have hthr : m4c.inflation_threshold = 15 / 100 := rfl
  have hgt : (([(100 : ℚ), 100, 100, 400].getLastD 0 - 100)) / |(100 : ℚ)| >
      m4c.inflation_threshold := by
    rw [hrate, hthr]
    norm_num
  have hwin : windowDeltas m4c (resolveAlias "coins") 4 = 100 :: [100, 100, 400] := rfl
  have h := c5_detect_inflation.2.2.1 m4c "coins" 4 100 [100, 100, 400]
    (by decide) hwin (by norm_num)
  refine ⟨rfl, ?_, ?_, ?_⟩
  · rw [h.1]
    exact hrate
  · exact h.2.1.mpr hgt
  · rw [h.2.2 hgt]
    rfl

/-! ### Claim C8 — resource scarcity heatmap -/

/-- The heatmap fold produces exactly one entry per nonempty currency
and appends exactly one WARNING alert per currency whose scarcity
percentage exceeds 50. -/
theorem heatStep_foldl (m : EMetrics) (l : List (String × List (String × Int))) :
    ∀ (acc : List (String × HeatEntry)) (mm : EMetrics),
      (l.foldl (heatStep m) (acc, mm)).1 =
        acc ++ l.filterMap (fun cp => if cp.2 = [] then none
          else some (cp.1, heatEntry m.scarcity_threshold cp.2))
      ∧ (l.foldl (heatStep m) (acc, mm)).2.active_alerts =
        mm.active_alerts ++ l.filterMap (fun cp =>
          if cp.2 = [] then none
          else if (heatEntry m.scarcity_threshold cp.2).scarcity_percentage > 50 then
            some { level := AlertLevel.WARNING,
                   message := "High resource scarcity in " ++ cp.1 }
          else none) := by
  induction l with
  | nil => intro acc mm; simp
  | cons cp rest ih =>
    intro acc mm
    rw [List.foldl_cons]
    by_cases hz : cp.2 = []
    · have hstep : heatStep m (acc, mm) cp = (acc, mm) := by
        simp [heatStep, hz]
      rw [hstep]
      obtain ⟨ih1, ih2⟩ := ih acc mm
      refine ⟨?_, ?_⟩
      · rw [ih1, List.filterMap_cons]
        simp [hz]
      · rw [ih2, List.filterMap_cons]
        simp [hz]
    · by_cases hp : (heatEntry m.scarcity_threshold cp.2).scarcity_percentage > 50
      · have hstep : heatStep m (acc, mm) cp =
            (acc ++ [(cp.1, heatEntry m.scarcity_threshold cp.2)],
             createAlert mm .WARNING ("High resource scarcity in " ++ cp.1)) := by
          simp [heatStep, hz, hp]
        rw [hstep]
        obtain ⟨ih1, ih2⟩ := ih (acc ++ [(cp.1, heatEntry m.scarcity_threshold cp.2)])
          (createAlert mm .WARNING ("High resource scarcity in " ++ cp.1))
        refine ⟨?_, ?_⟩
        · rw [ih1, List.filterMap_cons]
          simp [hz, List.append_assoc]
        · rw [ih2, List.filterMap_cons]
          simp [hz, hp, createAlert, List.append_assoc]
      · have hstep : heatStep m (acc, mm) cp =
            (acc ++ [(cp.1, heatEntry m.scarcity_threshold cp.2)], mm) := by
          simp [heatStep, hz, hp]
        rw [hstep]
        obtain ⟨ih1, ih2⟩ := ih (acc ++ [(cp.1, heatEntry m.scarcity_threshold cp.2)]) mm
        refine ⟨?_, ?_⟩
        · rw [ih1, List.filterMap_cons]
          simp [hz, List.append_assoc]
        · rw [ih2, List.filterMap_cons]
          simp [hz, hp]

/-- Looking a currency up in the computed entry list finds its entry,
given distinct currency keys. -/
theorem dlookup_heat_entries (m : EMetrics) :
    ∀ (l : List (String × List (String × Int))) (cur : String)
      (ps : List (String × Int)),
      (l.map Prod.fst).Nodup → (cur, ps) ∈ l → ps ≠ [] →
      dlookup (l.filterMap (fun cp => if cp.2 = [] then none
        else some (cp.1, heatEntry m.scarcity_threshold cp.2))) cur =
        some (heatEntry m.scarcity_threshold ps) := by
  intro l
  induction l with
  | nil => intro cur ps _ hmem _; cases hmem
  | cons hd tl ih =>
    intro cur ps hnd hmem hne
    obtain ⟨k0, v0⟩ := hd
    simp only [List.map_cons, List.nodup_cons] at hnd
    rcases List.mem_cons.mp hmem with heq | hmem2
    · injection heq with h1 h2
      subst h1
      subst h2
      rw [List.filterMap_cons]
      simp only [if_neg hne]
      simp [dlookup]
    · have hkcur : k0 ≠ cur := by
        intro he
        apply hnd.1
        subst he
        exact List.mem_map_of_mem Prod.fst hmem2
      rw [List.filterMap_cons]
      by_cases hz : v0 = []
      · simp only [if_pos hz]
        exact ih cur ps hnd.2 hmem2 hne
      · simp only [if_neg hz]
        simp only [dlookup, if_neg hkcur]
        exact ih cur ps hnd.2 hmem2 hne

/-- A metrics state with one tracked currency: balances 0 and 2. -/
def m8 : EMetrics :=
  { emInit with resource_distribution := [("coins", [("a", 0), ("b", 2)])] }

/-- C8 counterexample: the claim says the heatmap reports the POPULATION
standard deviation.  The code calls `statistics.stdev`, the SAMPLE
standard deviation (denominator `n − 1`).  For balances {0, 2} the
population variance is 1 (population stdev 1) while the reported
standard deviation squares to 2 (sample stdev √2): the reported value is
not the population standard deviation. -/
theorem c8_counterexample :
    (dlookup (generateResourceScarcityHeatmap m8).1 "coins").map
      HeatEntry.std_dev_sq = some 2
  ∧ popVarQ [0, 2] = 1
  ∧ (2 : ℚ) ≠ 1 := by
  refine ⟨?_, ?_, by norm_num⟩
  · unfold generateResourceScarcityHeatmap
    rw [(heatStep_foldl m8 m8.resource_distribution [] m8).1]
    rw [List.nil_append,
      dlookup_heat_entries m8 m8.resource_distribution "coins" [("a", 0), ("b", 2)]
        (by decide) (by decide) (by decide)]
    norm_num [heatEntry, sampleVarQ, meanQ]
  · norm_num [popVarQ, meanQ]

/-- C8 (amended): for each currency with at least one tracked player
balance (distinct currency keys), the heatmap maps it to an entry with
the mean balance, the SAMPLE standard deviation (`statistics.stdev`,
denominator `n − 1`; 0 for a single player) rather than the population
standard deviation, min, median and max, the players below
`mean × scarcity_threshold` (default 0.3), and
`scarcity_percentage = |scarce| / |players| × 100`; a percentage above
50 emits a WARNING alert for that currency. -/
theorem c8_scarcity_heatmap :
    ∀ (m : EMetrics) (cur : String) (ps : List (String × Int)),
      (m.resource_distribution.map Prod.fst).Nodup →
      (cur, ps) ∈ m.resource_distribution → ps ≠ [] →
      dlookup (generateResourceScarcityHeatmap m).1 cur =
        some (heatEntry m.scarcity_threshold ps)
      ∧ (heatEntry m.scarcity_threshold ps).average_balance = meanQ (ps.map Prod.snd)
      ∧ (heatEntry m.scarcity_threshold ps).std_dev_sq = sampleVarQ (ps.map Prod.snd)
      ∧ (heatEntry m.scarcity_threshold ps).dist_min = listMinD (ps.map Prod.snd)
      ∧ (heatEntry m.scarcity_threshold ps).dist_max = listMaxD (ps.map Prod.snd)
      ∧ (heatEntry m.scarcity_threshold ps).dist_median = medianQ (ps.map Prod.snd)
      ∧ (heatEntry m.scarcity_threshold ps).scarce_players =
          (ps.filter (fun p => (p.2 : ℚ) <
            meanQ (ps.map Prod.snd) * m.scarcity_threshold)).map Prod.fst
      ∧ (heatEntry m.scarcity_threshold ps).scarcity_percentage =
          ((ps.filter (fun p => (p.2 : ℚ) <
            meanQ (ps.map Prod.snd) * m.scarcity_threshold)).length : ℚ) /
            (ps.length : ℚ) * 100
      ∧ ((heatEntry m.scarcity_threshold ps).scarcity_percentage > 50 →
          ({ level := AlertLevel.WARNING,
             message := "High resource scarcity in " ++ cur } : Alert) ∈
            (generateResourceScarcityHeatmap m).2.active_alerts) := by
  intro m cur ps hnd hmem hne
  refine ⟨?_, rfl, rfl, rfl, rfl, rfl, rfl, ?_, ?_⟩
  · unfold generateResourceScarcityHeatmap
    rw [(heatStep_foldl m m.resource_distribution [] m).1, List.nil_append]
    exact dlookup_heat_entries m m.resource_distribution cur ps hnd hmem hne
  · simp only [heatEntry, List.length_map]
  · intro hgt
    unfold generateResourceScarcityHeatmap
    rw [(heatStep_foldl m m.resource_distribution [] m).2]
    refine List.mem_append.mpr (Or.inr ?_)
    refine List.mem_filterMap.mpr ⟨(cur, ps), hmem, ?_⟩
    simp only [if_neg hne, if_pos hgt]

/-- Three tracked players with balances 0, 0 and 10: two of the three
fall below mean × 0.3, a scarcity percentage of 200/3 > 50. -/
def m8w : EMetrics :=
  { emInit with resource_distribution := [("coins", [("a", 0), ("b", 0), ("c", 10)])] }

/-- C8 witness: the heatmap theorem applied at a concrete distribution
whose scarcity percentage crosses 50 and emits the WARNING alert. -/
theorem c8_scarcity_heatmap_witness :
    dlookup (generateResourceScarcityHeatmap m8w).1 "coins" =
      some (heatEntry m8w.scarcity_threshold [("a", 0), ("b", 0), ("c", 10)])
  ∧ ({ level := AlertLevel.WARNING,
       message := "High resource scarcity in coins" } : Alert) ∈
      (generateResourceScarcityHeatmap m8w).2.active_alerts := by
  have h := c8_scarcity_heatmap m8w "coins" [("a", 0), ("b", 0), ("c", 10)]
    (by decide) (by decide) (by decide)
  refine ⟨h.1, h.2.2.2.2.2.2.2.2 ?_⟩
  norm_num [heatEntry, meanQ, m8w, emInit]

/-! ### Claim C10 — monitoring facade can never mutate a wallet -/

/-- C10 counterexample: the claim presupposes that the facade creates
`PlayerWallet`s (keyed Soft/Premium/Utility/CoachingCredit) and that the
add path then raises a reachable `KeyError`.  In fact
`create_player_wallet` itself always raises `TypeError` (it passes
`initial_coins` / `initial_gems` / `initial_credits` / `credits_cap`
keywords that `PlayerWallet.__init__` does not accept), so the facade
registers no wallet at all and `process_transaction` on any player of a
fresh facade returns player-not-found — the KeyError branch is not
reachable through the facade. -/
theorem c10_counterexample :
    createPlayerWallet monInit "alice" 1000 50 20 100 = .error .typeError
  ∧ monProcessTransaction monInit "alice" "coins" 100 "daily_login_bonus" 1 =
      .ok (false, monInit, none) :=
  ⟨rfl, rfl⟩

/-- C10 (amended): `create_player_wallet` always raises `TypeError` and
registers nothing, so the facade's `process_transaction` can never
successfully mutate a wallet the facade created; moreover, were a
standard `PlayerWallet` (keys Soft/Premium/Utility/CoachingCredit)
registered, every currency name that alias-resolves to one of
{coins, gems, credits} would miss those keys: every positive amount
raises an uncaught `KeyError` in `add_currency`, and every negative
amount reads a default balance of 0 and fails with InsufficientFunds. -/
theorem c10_monitoring_facade_mismatch :
    (∀ (sys : MonSys) (pid : String) (coins gems credits cap : Int),
        createPlayerWallet sys pid coins gems credits cap = .error .typeError)
  ∧ (∀ (sys : MonSys) (pid cur src : String) (w : PlayerWallet) (a : Int) (wk : Nat),
        dlookup sys.wallets pid = some w →
        w.balances.map Prod.fst = ["Soft", "Premium", "Utility", "CoachingCredit"] →
        resolveAlias cur ∈ TRACKED_CURRENCIES →
        0 < a →
        monProcessTransaction sys pid cur a src wk = .error .keyError)
  ∧ (∀ (sys : MonSys) (pid cur src : String) (w : PlayerWallet) (a : Int) (wk : Nat),
        dlookup sys.wallets pid = some w →
        w.balances.map Prod.fst = ["Soft", "Premium", "Utility", "CoachingCredit"] →
        resolveAlias cur ∈ TRACKED_CURRENCIES →
        a < 0 →
        monProcessTransaction sys pid cur a src wk =
          .ok (false, sys,
            some { currency := resolveAlias cur, amount := -|a|, ttype := "Spend",
                   source := src ++ "_Failed",
                   failure_reason := some "InsufficientFunds" })) := by
  refine ⟨fun _ _ _ _ _ _ => rfl, ?_, ?_⟩
  · intro sys pid cur src w a wk hl hk hcur ha
    simp only [TRACKED_CURRENCIES, List.mem_cons, List.not_mem_nil, or_false] at hcur
    have hnone : dlookup w.balances (resolveAlias cur) = none := by
      apply dlookup_eq_none_of_not_mem
      rw [hk]
      rcases hcur with h | h | h <;> rw [h] <;> decide
    unfold monProcessTransaction
    simp only [hl]
    rw [if_pos ha]
    have hadd : addCurrency w (resolveAlias cur) a src = .error .keyError := by
      unfold addCurrency
      have hnc : ¬ (resolveAlias cur = "CoachingCredit") := by
        rcases hcur with h | h | h <;> rw [h] <;> decide
      rw [if_neg (not_le.mpr ha), if_neg hnc, hnone]
    rw [hadd]
  · intro sys pid cur src w a wk hl hk hcur ha
    simp only [TRACKED_CURRENCIES, List.mem_cons, List.not_mem_nil, or_false] at hcur
    have hnone : dlookup w.balances (resolveAlias cur) = none := by
      apply dlookup_eq_none_of_not_mem
      rw [hk]
      rcases hcur with h | h | h <;> rw [h] <;> decide
    have habs : (0 : Int) < |a| := abs_pos.mpr (by omega)
    have hget : dget w.balances (resolveAlias cur) 0 = 0 := by
      unfold dget
      rw [hnone]
      rfl
    unfold monProcessTransaction
    simp only [hl]
    rw [if_neg (by omega : ¬ a > 0)]
    have hsp : spendCurrency w (resolveAlias cur) |a| src =
        .ok (false, w,
          some { currency := resolveAlias cur, amount := -|a|, ttype := "Spend",
                 source := src ++ "_Failed",
                 failure_reason := some "InsufficientFunds" }) := by
      unfold spendCurrency
      rw [if_neg (not_le.mpr habs), if_pos (by rw [hget]; exact habs)]
    simp only [hsp]
    rw [if_neg Bool.false_ne_true, dset_lookup_eq _ _ _ hl]

/-- A facade state with player_Bob registered directly (as the claim
hypothesises; creation through the facade itself raises TypeError). -/
def sys10 : MonSys := { metrics := emInit, wallets := [("player_Bob", walletBob)] }

/-- C10 witness: the amended theorem applied at a registered standard
wallet: a positive coins add raises KeyError, a negative coins amount
fails with InsufficientFunds against the default balance 0. -/
theorem c10_monitoring_facade_mismatch_witness :
    createPlayerWallet monInit "bob" 500 10 5 50 = .error .typeError
  ∧ monProcessTransaction sys10 "player_Bob" "coins" 100 "daily_login_bonus" 1 =
      .error .keyError
  ∧ monProcessTransaction sys10 "player_Bob" "coins" (-30) "purchase" 1 =
      .ok (false, sys10,
        some { currency := "coins", amount := -30, ttype := "Spend",
               source := "purchase_Failed",
               failure_reason := some "InsufficientFunds" }) := by
  have h2 := c10_monitoring_facade_mismatch.2.1 sys10 "player_Bob" "coins"
    "daily_login_bonus" walletBob 100 1 (by decide) (by decide) (by decide) (by decide)
  have h3 := c10_monitoring_facade_mismatch.2.2 sys10 "player_Bob" "coins"
    "purchase" walletBob (-30) 1 (by decide) (by decide) (by decide) (by decide)
  refine ⟨c10_monitoring_facade_mismatch.1 monInit "bob" 500 10 5 50, ?_, ?_⟩
  · rw [h2]
  · rw [h3]
    rfl

/-- The scenario wallet: soft 1000, premium 50, capped currency 20 with
cap 100. -/
def walletScenario : PlayerWallet := PlayerWallet.init "player_Alice" 1000 50 0 20 100

/-- A reachable system state whose player is already at the credits cap
(credits 100, cap 100). -/
def sysCap : Sys := runOps sysInit [SysOp.create pid1 1000 50 100 100]

/-- The wallet dict `sysCap` stores for `pid1`. -/
def walletCap : IWallet :=
  { current_balances := [("coins", 1000), ("gems", 50), ("credits", 100)],
    max_capacities := [("coins", 10000), ("gems", 500), ("credits", 100)] }

/-- C2 witness: the amended theorem applied at the spec scenario —
balance 20, cap 100, add 90 gives balance 100 with
`excess_amount_discarded = 10`; the at-cap `process_transaction` add
fails with no state change; the sub-cap truncated `process_transaction`
add succeeds. -/
theorem c2_capped_add_truncation_witness :
    addCurrency walletScenario "CoachingCredit" 90 "EventBonus" =
      .ok (true,
        { walletScenario with balances := dset walletScenario.balances "CoachingCredit" 100 },
        some { currency := "CoachingCredit", amount := 80, ttype := "Earn",
               source := "EventBonus", cap_reached := true,
               excess_amount_discarded := some 10 })
  ∧ processTransaction sysCap pid1 "credits" 10 "achievement_reward" false = (sysCap, false)
  ∧ (processTransaction sysDemo pid1 "credits" 90 "achievement_reward" false).2 = true := by
  have h1 := c2_capped_add_truncation.1 walletScenario 20 90 "EventBonus"
    (by decide) (by decide) (by decide)
  have h2 := c2_capped_add_truncation.2.2.1 sysCap pid1 walletCap 100 10
    "achievement_reward" (by decide) (by decide) (by decide) (by decide)
  have h3 := c2_capped_add_truncation.2.2.2 sysDemo pid1 wallet1 20 90
    "achievement_reward" (by decide) (by decide) (by decide) (by decide)
  refine ⟨?_, h2, h3.1⟩
  rw [h1]
  rfl
